import Mathlib

/-!
# audTextBot — admission control, quota accounting and transcript pagination

A shallow embedding of `audTextBot/audio.go`.

* Go `int` values are mathematical integers (`Int`); every `+` and `-` the
  handlers perform on values that come from outside (durations, ledger
  counters) is wrapped to 64 bits with `wrapInt`, as on Go's 64-bit targets.
* Go `string` values are Lean strings: a Lean `String` is a list of Unicode
  scalar values, which is what `[]rune(text)` yields.
* A Go `error` is `Option String` (`none` is `nil`, `some m` carries
  `err.Error()`), and a `(value, error)` result is a pair.
* The package-level `redisService`, the transport (`isPremium`,
  `sendMessage`) and the transcription backend (`uploadUserFileData`,
  `decodeFile`) are not part of `audio.go`; the handlers take them as
  parameters.  Sent messages are collected in an outbox.  `log.Println` only
  writes to the process log and is not represented.
-/

namespace AudTextBot

/-! ## Machine integers and formatting -/

/-- Largest value of a 64-bit Go `int`. -/
def maxInt : Int := 9223372036854775807

/-- Smallest value of a 64-bit Go `int`. -/
def minInt : Int := -9223372036854775808

/-- Two's-complement wraparound of a mathematical integer to a 64-bit Go `int`. -/
def wrapInt (x : Int) : Int :=
  (x + 9223372036854775808) % 18446744073709551616 - 9223372036854775808

/-- Go `a + b` on `int`. -/
def addInt (a b : Int) : Int := wrapInt (a + b)

/-- Go `a - b` on `int`. -/
def subInt (a b : Int) : Int := wrapInt (a - b)

/-- Go `a / b` on `int` for a non-zero divisor: the quotient truncated toward zero. -/
def quoInt (a b : Int) : Int := wrapInt (Int.tdiv a b)

/-- Go `a % b` on `int` for a non-zero divisor: the remainder has the sign of `a`. -/
def remInt (a b : Int) : Int := Int.tmod a b

/-- The text `fmt` prints for an `int` under `%d` and `%v`. -/
def fmtD (n : Int) : String :=
  if n < 0 then "-" ++ Nat.repr n.natAbs else Nat.repr n.natAbs

/-- A run of `k` zero characters. -/
def zeros (k : Nat) : String := String.mk (List.replicate k '0')

/-- The text `fmt` prints for an `int` under `%02d`: the digits are padded with
zeros to width 2, and a minus sign takes one column of that width. -/
def fmt02d (n : Int) : String :=
  if n < 0 then "-" ++ zeros (1 - (Nat.repr n.natAbs).length) ++ Nat.repr n.natAbs
  else zeros (2 - (Nat.repr n.natAbs).length) ++ Nat.repr n.natAbs

/-- Two decimal digits, zero-padded: the `MM` and `SS` fields as the
specification words them. -/
def twoDigits (n : Nat) : String :=
  String.mk [Nat.digitChar (n / 10), Nat.digitChar (n % 10)]

/-! ## Constants (audio.go:11-15) -/

def unpremiumMaxAudioDuration : Int := 300

def premiumMaxAudioDuration : Int := 3600

def maxMessageLength : Int := 4000

/-! ## Text paginator (audio.go:74-88) -/

/-- The slice expression `runes[i:end]`; `none` is the run-time panic for
indices out of range. -/
def sliceRunes (runes : List Char) (i end_ : Int) : Option (List Char) :=
  if 0 ≤ i ∧ i ≤ end_ ∧ end_ ≤ (runes.length : Int) then
    some ((runes.take end_.toNat).drop i.toNat)
  else none

/-- The `for` loop of `paginateText`, one iteration per unit of fuel; `none`
when the fuel runs out or the slice expression panics.  The indices are not
wrapped: `i + chunkSize` exceeds the `int` range only for a slice of more than
`2^62` runes, which cannot be allocated. -/
def paginateLoop : Nat → List Char → Int → Int → List String → Option (List String)
  | 0, _, _, _, _ => none
  | fuel + 1, runes, chunkSize, i, chunks =>
    if i < (runes.length : Int) then
      let end0 := i + chunkSize
      let end_ := if end0 > (runes.length : Int) then (runes.length : Int) else end0
      match sliceRunes runes i end_ with
      | none => none
      | some chunk => paginateLoop fuel runes chunkSize (i + chunkSize) (chunks ++ [String.mk chunk])
    else some chunks

/-- The function `paginateText` run with a given amount of fuel. -/
def paginateTextFuel (fuel : Nat) (text : String) (chunkSize : Int) : Option (List String) :=
  paginateLoop fuel text.data chunkSize 0 []

/-- The function `paginateText`: one unit of fuel per code point, plus one for
the final loop test. -/
def paginateText (text : String) (chunkSize : Int) : Option (List String) :=
  paginateTextFuel (text.length + 1) text chunkSize

/-- The chunks of a list of runes, cut front to back `k` at a time, with one
unit of fuel per chunk: what the loop of `paginateText` appends. -/
def chunkList (k : Nat) : Nat → List Char → List String
  | 0, _ => []
  | fuel + 1, l =>
    if l.length = 0 then [] else String.mk (l.take k) :: chunkList k fuel (l.drop k)

/-! ## Collaborators -/

/-- The fields of `tgbotapi.Update` the handlers read. -/
structure Update where
  /-- The field `update.Message.Chat.ID`. -/
  chatID : Int
  /-- The field `update.Message.From.ID`. -/
  fromID : Int
  /-- The field `update.Message.From.FirstName`. -/
  firstName : String
  /-- The field `update.Message.Audio.Duration`. -/
  audioDuration : Int
  /-- The field `update.Message.Audio.FileID`. -/
  audioFileID : String
  /-- The field `update.Message.Voice.Duration`. -/
  voiceDuration : Int
  /-- The field `update.Message.Voice.FileID`. -/
  voiceFileID : String

/-- The transport and transcription collaborators reached through `bot`:
`isPremium(bot, userId, chatId)`, `uploadUserFileData(bot, fileID)` and
`decodeFile(fileURL)`, each with the result it returns. -/
structure Bot where
  isPremium : Int → Int → Bool
  uploadUserFileData : String → String × Option String
  decodeFile : String → String × Option String

/-- The four operations `audio.go` calls on the package-level `redisService`,
over a store state `σ`.  Each returns its Go result and the store afterwards. -/
structure RedisService (σ : Type) where
  GetUnpremiumTimeSpent : Int → σ → (Int × Option String) × σ
  SaveUnpremiumUser : Int → σ → Option String × σ
  IncrementUnpremiumTime : Int → Int → σ → (Int × Option String) × σ
  IcrementPremiumTime : Int → Int → σ → (Int × Option String) × σ

/-- What a handler can change: the counter store and the messages sent so far
(oldest first), each with its chat id. -/
structure World (σ : Type) where
  redis : σ
  sent : List (Int × String)

/-- The call `sendMessage(bot, chatID, text)`. -/
def sendMessage {σ : Type} (chatID : Int) (text : String) (w : World σ) : World σ :=
  { w with sent := w.sent ++ [(chatID, text)] }

/-! ## Admission controller (audio.go:90-120) -/

/-- Lines 112-119 of `isAudioDurationAllowed`: the check that the user has
enough time left. -/
def checkEnoughTime (audioDuration notPremiumTime : Int) : Option String :=
  if addInt audioDuration notPremiumTime > unpremiumMaxAudioDuration then
    let remainingTime := subInt unpremiumMaxAudioDuration notPremiumTime
    let minutes := quoInt remainingTime 60
    let seconds := remInt remainingTime 60
    some ("Too long audio, you dont have enough free time, remaining time: "
      ++ fmt02d minutes ++ " minutes " ++ fmt02d seconds ++ " seconds")
  else none

/-- The function `isAudioDurationAllowed`: the error it returns (`none` for
`nil`) and the store afterwards. -/
def isAudioDurationAllowed {σ : Type} (redisService : RedisService σ)
    (audioDuration userId : Int) (userName : String) (isPremium : Bool) (s : σ) :
    Option String × σ :=
  if isPremium then (none, s)
  else if audioDuration > unpremiumMaxAudioDuration then
    (some ("The audio file is too long. Only " ++ fmtD (unpremiumMaxAudioDuration / 60)
      ++ " minutes allowed for users without premium"), s)
  else
    match redisService.GetUnpremiumTimeSpent userId s with
    | ((notPremiumTime, none), s1) => (checkEnoughTime audioDuration notPremiumTime, s1)
    | ((notPremiumTime, some e), s1) =>
      if e = "Max time exceeded" then
        (some ("Dear " ++ userName
          ++ ", You have exceeded maximum numbers of free decoding of audio,to get premium - type /premium"), s1)
      else if e = "User doesn\x27t exist" then
        match redisService.SaveUnpremiumUser userId s1 with
        | (some _, s2) => (some "There is an error occurred, please try again later", s2)
        | (none, s2) => (checkEnoughTime audioDuration notPremiumTime, s2)
      else (checkEnoughTime audioDuration notPremiumTime, s1)

/-! ## Transcription (audio.go:122-136) -/

/-- The function `decodeAudioFile`. -/
def decodeAudioFile (bot : Bot) (fileID : String) : String × Option String :=
  match bot.uploadUserFileData fileID with
  | (_, some _) => ("", some "There is an error occurred while decoding the file")
  | (fileURL, none) =>
    match bot.decodeFile fileURL with
    | (_, some _) => ("", some "There is an error occurred while decoding the file")
    | (text, none) => (text, none)

/-! ## Request handlers (audio.go:17-72 and 138-192) -/

/-- The text of the post-decode message for a cap and the total the ledger
returned (audio.go:58-61, 68-71, 177-180, 188-191). -/
def remainingMessage (cap timeSpent : Int) : String :=
  let remainingTime := subInt cap timeSpent
  let minutes := quoInt remainingTime 60
  let seconds := remInt remainingTime 60
  "Remaining free time: " ++ fmt02d minutes ++ " minutes " ++ fmt02d seconds ++ " seconds"

/-- The function `handleAudio`; `none` only if `paginateText` does not return. -/
def handleAudio {σ : Type} (redisService : RedisService σ) (bot : Bot) (update : Update)
    (w : World σ) : Option (World σ) :=
  let isPremium := bot.isPremium update.fromID update.chatID
  match isAudioDurationAllowed redisService update.audioDuration update.fromID
      update.firstName isPremium w.redis with
  | (some e, s1) => some (sendMessage update.chatID e { w with redis := s1 })
  | (none, s1) =>
    let w1 := sendMessage update.chatID
      "Decoding will take from 15% to 30% of file duration if it is not too short"
      { w with redis := s1 }
    match decodeAudioFile bot update.audioFileID with
    | (_, some _) => some (sendMessage update.chatID "There was an error decoding the file" w1)
    | (text, none) =>
      match paginateText text maxMessageLength with
      | none => none
      | some chunks =>
        let w2 := sendMessage update.chatID "Here is the script of the audio:" w1
        let w3 := chunks.foldl (fun acc chunk => sendMessage update.chatID chunk acc) w2
        if !isPremium then
          match redisService.IncrementUnpremiumTime update.fromID update.audioDuration w3.redis with
          | ((timeSpent, _), s2) =>
            some (sendMessage update.chatID (remainingMessage unpremiumMaxAudioDuration timeSpent)
              { w3 with redis := s2 })
        else
          match redisService.IcrementPremiumTime update.fromID update.audioDuration w3.redis with
          | ((timeSpent, _), s2) =>
            some (sendMessage update.chatID (remainingMessage premiumMaxAudioDuration timeSpent)
              { w3 with redis := s2 })

/-- The function `handleVoice`; `none` only if `paginateText` does not return. -/
def handleVoice {σ : Type} (redisService : RedisService σ) (bot : Bot) (update : Update)
    (w : World σ) : Option (World σ) :=
  let isPremium := bot.isPremium update.fromID update.chatID
  match isAudioDurationAllowed redisService update.voiceDuration update.fromID
      update.firstName isPremium w.redis with
  | (some e, s1) => some (sendMessage update.chatID e { w with redis := s1 })
  | (none, s1) =>
    let w1 := sendMessage update.chatID
      "Decoding will take from 15% to 30% of file duration if it is not too short"
      { w with redis := s1 }
    match decodeAudioFile bot update.voiceFileID with
    | (_, some _) => some (sendMessage update.chatID "There was an error decoding the file" w1)
    | (text, none) =>
      match paginateText text maxMessageLength with
      | none => none
      | some chunks =>
        let w2 := sendMessage update.chatID "Here is the script of the voice message:" w1
        let w3 := chunks.foldl (fun acc chunk => sendMessage update.chatID chunk acc) w2
        if !isPremium then
          match redisService.IncrementUnpremiumTime update.fromID update.voiceDuration w3.redis with
          | ((timeSpent, _), s2) =>
            some (sendMessage update.chatID (remainingMessage unpremiumMaxAudioDuration timeSpent)
              { w3 with redis := s2 })
        else
          match redisService.IcrementPremiumTime update.fromID update.voiceDuration w3.redis with
          | ((timeSpent, _), s2) =>
            some (sendMessage update.chatID (remainingMessage premiumMaxAudioDuration timeSpent)
              { w3 with redis := s2 })

/-- One inbound event: an audio or a voice message, with the collaborators as
they answer while it is handled. -/
inductive Event where
  | audio (bot : Bot) (update : Update)
  | voice (bot : Bot) (update : Update)

/-- Handling one event. -/
def step {σ : Type} (redisService : RedisService σ) (e : Event) (w : World σ) :
    Option (World σ) :=
  match e with
  | Event.audio bot update => handleAudio redisService bot update w
  | Event.voice bot update => handleVoice redisService bot update w

/-- A sequential run: the events are handled one after the other, each to
completion before the next starts. -/
def run {σ : Type} (redisService : RedisService σ) : List Event → World σ → Option (World σ)
  | [], w => some w
  | e :: es, w =>
    match step redisService e w with
    | none => none
    | some w1 => run redisService es w1

/-- The collaborators of an event. -/
def Event.bot : Event → Bot
  | Event.audio bot _ => bot
  | Event.voice bot _ => bot

/-- The update of an event. -/
def Event.update : Event → Update
  | Event.audio _ update => update
  | Event.voice _ update => update

/-- The duration the handler of an event reads: `Audio.Duration` or
`Voice.Duration`. -/
def Event.duration : Event → Int
  | Event.audio _ update => update.audioDuration
  | Event.voice _ update => update.voiceDuration

/-- The file the handler of an event decodes: `Audio.FileID` or `Voice.FileID`. -/
def Event.fileID : Event → String
  | Event.audio _ update => update.audioFileID
  | Event.voice _ update => update.voiceFileID

/-- The line a handler sends ahead of the transcript. -/
def Event.header : Event → String
  | Event.audio _ _ => "Here is the script of the audio:"
  | Event.voice _ _ => "Here is the script of the voice message:"

/-- Whether the transport reports the sender of an event as premium. -/
def Event.isPremium (e : Event) : Bool :=
  e.bot.isPremium e.update.fromID e.update.chatID

/-- The admission check a handler runs for an event. -/
def Event.admission {σ : Type} (redisService : RedisService σ) (e : Event) (s : σ) :
    Option String × σ :=
  isAudioDurationAllowed redisService e.duration e.update.fromID e.update.firstName
    e.isPremium s

/-- The increment a handler issues for an event: on the free-tier counter for
a user who is not premium, on the premium-tier counter otherwise. -/
def Event.increment {σ : Type} (redisService : RedisService σ) (e : Event) (s : σ) :
    (Int × Option String) × σ :=
  if e.isPremium then redisService.IcrementPremiumTime e.update.fromID e.duration s
  else redisService.IncrementUnpremiumTime e.update.fromID e.duration s

/-- The notice sent before decoding. -/
def decodingNotice : String :=
  "Decoding will take from 15% to 30% of file duration if it is not too short"

/-- The message sent when decoding fails. -/
def decodeFailureMessage : String := "There was an error decoding the file"

/-! ## Quota ledger -/

/-- An operation issued on the ledger. -/
inductive LedgerCall where
  | getConsumed (userId : Int)
  | initializeUser (userId : Int)
  | incrementFree (userId delta : Int)
  | incrementPremium (userId delta : Int)
  deriving DecidableEq

/-- Modelled from the spec: the usage record of one user (§3, §4.2); package
`redisService` is not in the source tree.  The two counters are independent;
`none` is a counter that was never created, and `blocked` is the out-of-band
policy flag behind `PeriodCapPermanentlyExceeded`. -/
structure UsageRecord where
  free : Option Int
  premium : Option Int
  blocked : Bool

/-- Modelled from the spec: the keyed counter store of §4.2, missing from the
source tree, together with the list of operations issued on it so far (oldest
first). -/
structure Ledger where
  records : Int → UsageRecord
  calls : List LedgerCall

/-- The store with the record of one user replaced. -/
def Ledger.setRecord (l : Ledger) (userId : Int) (r : UsageRecord) : Int → UsageRecord :=
  fun u => if u = userId then r else l.records u

/-- Modelled from the spec: the operation `GetConsumed` of §4.2, missing from
the source tree.  It fails with `UserNotFound` for a user without a record and
with `PeriodCapPermanentlyExceeded` for a blocked user; a failed read returns
Go's zero value next to the error, and the error texts are the ones `audio.go`
compares against. -/
def Ledger.getConsumed (userId : Int) (l : Ledger) : (Int × Option String) × Ledger :=
  let l1 : Ledger := { l with calls := l.calls ++ [LedgerCall.getConsumed userId] }
  match (l.records userId).free with
  | none => ((0, some "User doesn\x27t exist"), l1)
  | some c =>
    if (l.records userId).blocked then ((0, some "Max time exceeded"), l1)
    else ((c, none), l1)

/-- Modelled from the spec: the operation `InitializeUser` of §4.2, missing
from the source tree.  It creates a zero-valued record for a first-seen user
and leaves an existing record as it is. -/
def Ledger.initializeUser (userId : Int) (l : Ledger) : Option String × Ledger :=
  let r := l.records userId
  let r1 : UsageRecord := match r.free with
    | none => { r with free := some 0 }
    | some _ => r
  (none, { records := l.setRecord userId r1, calls := l.calls ++ [LedgerCall.initializeUser userId] })

/-- Modelled from the spec: the operation `IncrementConsumed` of §4.2 on the
free-tier counter, missing from the source tree.  It adds the delta to the
stored counter (zero if there is none yet) and returns the new total; it does
not enforce the cap. -/
def Ledger.incrementFree (userId delta : Int) (l : Ledger) : (Int × Option String) × Ledger :=
  let r := l.records userId
  let total := r.free.getD 0 + delta
  ((total, none), { records := l.setRecord userId { r with free := some total },
                    calls := l.calls ++ [LedgerCall.incrementFree userId delta] })

/-- Modelled from the spec: the operation `IncrementConsumed` of §4.2 on the
premium-tier counter, missing from the source tree. -/
def Ledger.incrementPremium (userId delta : Int) (l : Ledger) : (Int × Option String) × Ledger :=
  let r := l.records userId
  let total := r.premium.getD 0 + delta
  ((total, none), { records := l.setRecord userId { r with premium := some total },
                    calls := l.calls ++ [LedgerCall.incrementPremium userId delta] })

/-- Modelled from the spec: the Quota Ledger of §4.2 behind the names
`audio.go` calls on `redisService`. -/
def ledgerService : RedisService Ledger where
  GetUnpremiumTimeSpent := Ledger.getConsumed
  SaveUnpremiumUser := Ledger.initializeUser
  IncrementUnpremiumTime := Ledger.incrementFree
  IcrementPremiumTime := Ledger.incrementPremium

/-- The seconds a user has consumed under a tier; zero while the counter has
not been created. -/
def Ledger.counter (l : Ledger) (userId : Int) (isPremium : Bool) : Int :=
  if isPremium then (l.records userId).premium.getD 0 else (l.records userId).free.getD 0

/-- The tier cap in seconds. -/
def tierCap (isPremium : Bool) : Int :=
  if isPremium then premiumMaxAudioDuration else unpremiumMaxAudioDuration

/-- Every free-tier counter of the ledger is within the free cap. -/
def FreeWithinCap (l : Ledger) : Prop :=
  ∀ u c, (l.records u).free = some c → c ≤ unpremiumMaxAudioDuration

/-- Every premium-tier counter of the ledger is within the premium cap. -/
def PremiumWithinCap (l : Ledger) : Prop :=
  ∀ u c, (l.records u).premium = some c → c ≤ premiumMaxAudioDuration

/-- The ledger in which no user has been seen. -/
def emptyLedger : Ledger :=
  { records := fun _ => { free := none, premium := none, blocked := false }, calls := [] }

/-- A ledger in which one user has the given counters and nobody else has
been seen. -/
def ledgerWith (userId : Int) (free premium : Option Int) : Ledger :=
  { records := emptyLedger.setRecord userId { free := free, premium := premium, blocked := false },
    calls := [] }

/-- Collaborators for a user of the given tier whose file decodes to `text`. -/
def botDecoding (isPremium : Bool) (text : String) : Bot :=
  { isPremium := fun _ _ => isPremium
    uploadUserFileData := fun fileID => (fileID, none)
    decodeFile := fun _ => (text, none) }

/-- Collaborators for a user of the given tier whose transcription fails. -/
def botFailing (isPremium : Bool) : Bot :=
  { isPremium := fun _ _ => isPremium
    uploadUserFileData := fun fileID => (fileID, none)
    decodeFile := fun _ => ("", some "decode failed") }

/-- An update from user 7 in chat 1 with the given duration, used for both
the audio and the voice fields. -/
def updateOf (duration : Int) : Update :=
  { chatID := 1, fromID := 7, firstName := "Ann", audioDuration := duration,
    audioFileID := "f", voiceDuration := duration, voiceFileID := "f" }

/-! ## Quota ledger behind a store that can be unavailable -/

/-- Modelled from the spec: the ledger of §4.2 behind a store that can be
unavailable (`LedgerUnavailable`, §7); package `redisService` is not in the
source tree.  Each kind of operation has a schedule of outcomes, one entry
per call, oldest first: `some m` makes that call fail with the store error
`m`, `none` (or an exhausted schedule) lets it through to the ledger. -/
structure FaultyLedger where
  ledger : Ledger
  readFaults : List (Option String)
  saveFaults : List (Option String)
  incrementFaults : List (Option String)

/-- Modelled from the spec: `GetConsumed` on a store that can be unavailable;
a failed read returns Go's zero value next to the error and leaves the
records as they are. -/
def FaultyLedger.getConsumed (userId : Int) (s : FaultyLedger) :
    (Int × Option String) × FaultyLedger :=
  match s.readFaults with
  | some m :: rest => ((0, some m), { s with readFaults := rest })
  | none :: rest =>
    ((Ledger.getConsumed userId s.ledger).1,
      { s with ledger := (Ledger.getConsumed userId s.ledger).2, readFaults := rest })
  | [] =>
    ((Ledger.getConsumed userId s.ledger).1,
      { s with ledger := (Ledger.getConsumed userId s.ledger).2 })

/-- Modelled from the spec: `InitializeUser` on a store that can be
unavailable; a failed call creates nothing. -/
def FaultyLedger.initializeUser (userId : Int) (s : FaultyLedger) :
    Option String × FaultyLedger :=
  match s.saveFaults with
  | some m :: rest => (some m, { s with saveFaults := rest })
  | none :: rest =>
    ((Ledger.initializeUser userId s.ledger).1,
      { s with ledger := (Ledger.initializeUser userId s.ledger).2, saveFaults := rest })
  | [] =>
    ((Ledger.initializeUser userId s.ledger).1,
      { s with ledger := (Ledger.initializeUser userId s.ledger).2 })

/-- Modelled from the spec: `IncrementConsumed` on the free-tier counter, on a
store that can be unavailable; a failed increment adds nothing. -/
def FaultyLedger.incrementFree (userId delta : Int) (s : FaultyLedger) :
    (Int × Option String) × FaultyLedger :=
  match s.incrementFaults with
  | some m :: rest => ((0, some m), { s with incrementFaults := rest })
  | none :: rest =>
    ((Ledger.incrementFree userId delta s.ledger).1,
      { s with ledger := (Ledger.incrementFree userId delta s.ledger).2,
               incrementFaults := rest })
  | [] =>
    ((Ledger.incrementFree userId delta s.ledger).1,
      { s with ledger := (Ledger.incrementFree userId delta s.ledger).2 })

/-- Modelled from the spec: `IncrementConsumed` on the premium-tier counter, on
a store that can be unavailable; a failed increment adds nothing. -/
def FaultyLedger.incrementPremium (userId delta : Int) (s : FaultyLedger) :
    (Int × Option String) × FaultyLedger :=
  match s.incrementFaults with
  | some m :: rest => ((0, some m), { s with incrementFaults := rest })
  | none :: rest =>
    ((Ledger.incrementPremium userId delta s.ledger).1,
      { s with ledger := (Ledger.incrementPremium userId delta s.ledger).2,
               incrementFaults := rest })
  | [] =>
    ((Ledger.incrementPremium userId delta s.ledger).1,
      { s with ledger := (Ledger.incrementPremium userId delta s.ledger).2 })

/-- Modelled from the spec: the Quota Ledger of §4.2 on a store that can be
unavailable, behind the names `audio.go` calls on `redisService`. -/
def faultyLedgerService : RedisService FaultyLedger where
  GetUnpremiumTimeSpent := FaultyLedger.getConsumed
  SaveUnpremiumUser := FaultyLedger.initializeUser
  IncrementUnpremiumTime := FaultyLedger.incrementFree
  IcrementPremiumTime := FaultyLedger.incrementPremium

/-- No read of the schedule fails with a store error. -/
def ReadsSucceed (s : FaultyLedger) : Prop := ∀ f ∈ s.readFaults, f = none

/-! ## Pagination: the loop and its chunks -/

theorem sliceRunes_eq (runes : List Char) (m k : Nat) (hk : 0 < k) (hm : m < runes.length) :
    sliceRunes runes (m : Int)
      (if (m : Int) + (k : Int) > (runes.length : Int) then (runes.length : Int)
        else (m : Int) + (k : Int))
      = some ((runes.drop m).take k) := by
  unfold sliceRunes
  split_ifs with h1 h2 h3
  · simp only [Int.toNat_ofNat, Option.some.injEq]
    rw [List.take_length, List.take_of_length_le]
    simp only [List.length_drop]
    omega
  · omega
  · have e : ((m : Int) + (k : Int)).toNat = m + k := by omega
    simp only [Int.toNat_ofNat, e, Option.some.injEq]
    rw [List.drop_take]
    congr 1
    omega
  · omega

theorem paginateLoop_eq (runes : List Char) (k : Nat) (hk : 0 < k) :
    ∀ (fuel m : Nat) (chunks : List String), runes.length - m < fuel →
      paginateLoop fuel runes (k : Int) (m : Int) chunks
        = some (chunks ++ chunkList k fuel (runes.drop m)) := by
  intro fuel
  induction fuel with
  | zero => intro m chunks h; omega
  | succ fuel ih =>
    intro m chunks h
    unfold paginateLoop
    by_cases hm : m < runes.length
    · have hlt : (m : Int) < (runes.length : Int) := by omega
      simp only [hlt, if_true]
      rw [sliceRunes_eq runes m k hk hm]
      have e : (m : Int) + (k : Int) = ((m + k : Nat) : Int) := by omega
      simp only [e]
      rw [ih (m + k) _ (by omega)]
      have hne : ¬ (runes.drop m).length = 0 := by
        simp only [List.length_drop]; omega
      simp only [chunkList, hne, if_false, List.drop_drop, List.append_assoc,
        List.singleton_append]
    · have hlt : ¬ (m : Int) < (runes.length : Int) := by omega
      have hnil : runes.drop m = [] := List.drop_eq_nil_of_le (by omega)
      simp [hlt, hnil, chunkList]

theorem chunkList_flatten (k : Nat) (hk : 0 < k) :
    ∀ (fuel : Nat) (l : List Char), l.length ≤ fuel →
      ((chunkList k fuel l).map String.data).flatten = l := by
  intro fuel
  induction fuel with
  | zero =>
    intro l h
    have : l = [] := List.length_eq_zero.mp (by omega)
    simp [chunkList, this]
  | succ fuel ih =>
    intro l h
    unfold chunkList
    by_cases hl : l.length = 0
    · simp [hl, List.length_eq_zero.mp hl]
    · simp only [hl, if_false, List.map_cons, List.flatten_cons]
      rw [ih (l.drop k) (by simp only [List.length_drop]; omega)]
      exact List.take_append_drop k l

theorem chunkList_length (k : Nat) (hk : 0 < k) :
    ∀ (fuel : Nat) (l : List Char), l.length ≤ fuel →
      l.length ≤ (chunkList k fuel l).length * k ∧
      ((chunkList k fuel l).length = 0 ∨ ((chunkList k fuel l).length - 1) * k < l.length) := by
  intro fuel
  induction fuel with
  | zero =>
    intro l h
    have h0 : l.length = 0 := by omega
    simp [chunkList, h0]
  | succ fuel ih =>
    intro l h
    unfold chunkList
    by_cases hl : l.length = 0
    · simp [hl]
    · simp only [hl, if_false, List.length_cons]
      have h2 := ih (l.drop k) (by simp only [List.length_drop]; omega)
      simp only [List.length_drop] at h2
      obtain ⟨h3, h4⟩ := h2
      generalize (chunkList k fuel (l.drop k)).length = c at h3 h4
      rw [Nat.succ_mul]
      refine ⟨by omega, Or.inr ?_⟩
      simp only [Nat.add_sub_cancel]
      cases c with
      | zero => simp; omega
      | succ d =>
        simp only [Nat.add_sub_cancel] at h4
        rw [Nat.succ_mul]
        rw [Nat.succ_mul] at h3
        omega

theorem chunkList_getElem (k : Nat) :
    ∀ (fuel : Nat) (l : List Char) (j : Nat) (c : String),
      (chunkList k fuel l)[j]? = some c → c.length = min k (l.length - j * k) := by
  intro fuel
  induction fuel with
  | zero => intro l j c h; simp [chunkList] at h
  | succ fuel ih =>
    intro l j c h
    unfold chunkList at h
    by_cases hl : l.length = 0
    · simp [hl] at h
    · simp only [hl, if_false] at h
      cases j with
      | zero =>
        simp only [List.getElem?_cons_zero, Option.some.injEq] at h
        subst h
        simp [String.length, List.length_take]
      | succ j =>
        simp only [List.getElem?_cons_succ] at h
        rw [ih (l.drop k) j c h, List.length_drop, Nat.succ_mul]
        congr 1
        omega

theorem chunkList_fuel (k : Nat) (hk : 0 < k) :
    ∀ (f1 f2 : Nat) (l : List Char), l.length ≤ f1 → l.length ≤ f2 →
      chunkList k f1 l = chunkList k f2 l := by
  intro f1
  induction f1 with
  | zero =>
    intro f2 l h1 _
    have h0 : l.length = 0 := by omega
    cases f2 <;> simp [chunkList, h0]
  | succ f1 ih =>
    intro f2 l h1 h2
    cases f2 with
    | zero =>
      have h0 : l.length = 0 := by omega
      simp [chunkList, h0]
    | succ f2 =>
      unfold chunkList
      by_cases hl : l.length = 0
      · simp [hl]
      · simp only [hl, if_false]
        rw [ih f2 (l.drop k) (by simp only [List.length_drop]; omega)
          (by simp only [List.length_drop]; omega)]

theorem paginateTextFuel_eq (text : String) (k : Nat) (hk : 0 < k) (fuel : Nat)
    (hf : text.length < fuel) :
    paginateTextFuel fuel text (k : Int) = some (chunkList k text.length text.data) := by
  unfold paginateTextFuel
  have h := paginateLoop_eq text.data k hk fuel 0 [] (by
    simp only [Nat.sub_zero]; exact hf)
  simp only [Int.ofNat_zero, List.drop_zero, List.nil_append] at h
  rw [h, chunkList_fuel k hk fuel text.length text.data (by
    show text.data.length ≤ fuel
    exact Nat.le_of_lt hf) (Nat.le_refl _)]

theorem paginateText_eq (text : String) (k : Nat) (hk : 0 < k) :
    paginateText text (k : Int) = some (chunkList k text.length text.data) :=
  paginateTextFuel_eq text k hk (text.length + 1) (Nat.lt_succ_self _)

theorem paginateText_maxMessageLength (text : String) :
    paginateText text maxMessageLength = some (chunkList 4000 text.length text.data) :=
  paginateText_eq text 4000 (by decide)

/-- C4. For every text and every chunk size above zero, `paginateText` returns
(with the fuel it is given and with any larger amount), and concatenating the
chunks in order gives back the text, code point for code point. -/
theorem paginateText_concat (text : String) (chunkSize : Int) (hk : 0 < chunkSize) :
    ∃ chunks, paginateText text chunkSize = some chunks
      ∧ (∀ fuel, text.length < fuel → paginateTextFuel fuel text chunkSize = some chunks)
      ∧ String.join chunks = text := by
  obtain ⟨k, rfl⟩ := Int.eq_ofNat_of_zero_le (Int.le_of_lt hk)
  have hk0 : 0 < k := by omega
  refine ⟨chunkList k text.length text.data, paginateText_eq text k hk0,
    fun fuel hf => paginateTextFuel_eq text k hk0 fuel hf, ?_⟩
  rw [String.join_eq, chunkList_flatten k hk0 text.length text.data (Nat.le_refl _)]

theorem paginateText_concat_witness :
    (0 : Int) < 4 ∧ ∃ chunks, paginateText "transcript" 4 = some chunks
      ∧ (∀ fuel, "transcript".length < fuel → paginateTextFuel fuel "transcript" 4 = some chunks)
      ∧ String.join chunks = "transcript" :=
  ⟨by decide, paginateText_concat "transcript" 4 (by decide)⟩

/-- C5. For a text of `n` code points and a chunk size `k` above zero,
`paginateText` returns `ceil (n / k)` chunks; no chunk is longer than `k`, every
chunk but the last has exactly `k` code points, the last has `n mod k` (`k` when
`k` divides `n`), and the empty text gives the empty sequence. -/
theorem paginateText_chunk_sizes (text : String) (chunkSize : Int) (hk : 0 < chunkSize) :
    ∃ chunks, paginateText text chunkSize = some chunks
      ∧ (∀ fuel, text.length < fuel → paginateTextFuel fuel text chunkSize = some chunks)
      ∧ chunks.length = ⌈(text.length : ℚ) / (chunkSize : ℚ)⌉₊
      ∧ (∀ j c, chunks[j]? = some c →
          (c.length : Int) ≤ chunkSize
          ∧ (j + 1 < chunks.length → (c.length : Int) = chunkSize)
          ∧ (j + 1 = chunks.length → (c.length : Int) =
              if (text.length : Int) % chunkSize = 0 then chunkSize
              else (text.length : Int) % chunkSize))
      ∧ (text.length = 0 → chunks = []) := by
  obtain ⟨k, rfl⟩ := Int.eq_ofNat_of_zero_le (Int.le_of_lt hk)
  have hk0 : 0 < k := by omega
  obtain ⟨hup, hlow⟩ := chunkList_length k hk0 text.length text.data (Nat.le_refl _)
  have hlen : text.data.length = text.length := rfl
  rw [hlen] at hup hlow
  refine ⟨chunkList k text.length text.data, paginateText_eq text k hk0,
    fun fuel hf => paginateTextFuel_eq text k hk0 fuel hf, ?_, ?_, ?_⟩
  · generalize (chunkList k text.length text.data).length = c at hup hlow
    symm
    have hkq : (0 : ℚ) < (k : ℚ) := by exact_mod_cast hk0
    rcases Nat.eq_zero_or_pos c with hc | hc
    · subst hc
      have h0 : text.length = 0 := by simpa using hup
      simp [h0]
    · have hlow2 : (c - 1) * k < text.length := by omega
      rw [Int.cast_natCast, Nat.ceil_eq_iff (by omega)]
      constructor
      · rw [lt_div_iff₀ hkq]
        exact_mod_cast hlow2
      · rw [div_le_iff₀ hkq]
        exact_mod_cast hup
  · intro j c hj
    have hsz := chunkList_getElem k text.length text.data j c hj
    rw [hlen] at hsz
    have hjlt : j < (chunkList k text.length text.data).length := by
      rcases Nat.lt_or_ge j (chunkList k text.length text.data).length with h | h
      · exact h
      · rw [List.getElem?_eq_none h] at hj; cases hj
    generalize (chunkList k text.length text.data).length = n at hup hlow hjlt
    refine ⟨by omega, ?_, ?_⟩
    · intro hnl
      have h1 : (j + 1) * k ≤ (n - 1) * k := Nat.mul_le_mul_right k (by omega)
      rw [Nat.succ_mul] at h1
      have : c.length = k := by omega
      exact_mod_cast this
    · intro hl
      subst hl
      simp only [Nat.add_sub_cancel] at hlow
      rw [Nat.succ_mul] at hup
      have hlow3 : j * k < text.length := by omega
      obtain ⟨r, hr⟩ : ∃ r, text.length = j * k + r := ⟨text.length - j * k, by omega⟩
      have hcr : c.length = r := by omega
      have hr1 : 0 < r := by omega
      have hr2 : r ≤ k := by omega
      have hmod : (text.length : Int) % (k : Int) = ((text.length % k : Nat) : Int) := by
        norm_cast
      rw [hmod, hcr, hr, Nat.mul_comm j k, Nat.mul_add_mod]
      rcases Nat.lt_or_eq_of_le hr2 with h | h
      · rw [Nat.mod_eq_of_lt h]
        have : ¬ ((r : Nat) : Int) = 0 := by omega
        simp [this]
      · subst h
        simp
  · intro h0
    have : text.data = [] := List.length_eq_zero.mp (by rw [hlen]; exact h0)
    rw [h0, this]
    rfl

theorem paginateText_chunk_sizes_witness :
    (0 : Int) < 4 ∧ ∃ chunks, paginateText "transcript" 4 = some chunks
      ∧ (∀ fuel, "transcript".length < fuel → paginateTextFuel fuel "transcript" 4 = some chunks)
      ∧ chunks.length = ⌈(("transcript".length : ℕ) : ℚ) / ((4 : Int) : ℚ)⌉₊
      ∧ (∀ j c, chunks[j]? = some c →
          (c.length : Int) ≤ 4
          ∧ (j + 1 < chunks.length → (c.length : Int) = 4)
          ∧ (j + 1 = chunks.length → (c.length : Int) =
              if ("transcript".length : Int) % 4 = 0 then 4
              else ("transcript".length : Int) % 4))
      ∧ ("transcript".length = 0 → chunks = []) :=
  ⟨by decide, paginateText_chunk_sizes "transcript" 4 (by decide)⟩

/-! ## Machine integers and formatting: facts -/

theorem wrapInt_of_range (x : Int) (h1 : minInt ≤ x) (h2 : x ≤ maxInt) : wrapInt x = x := by
  unfold minInt at h1
  unfold maxInt at h2
  unfold wrapInt
  omega

theorem fmt02d_twoDigits : ∀ n : Nat, n < 100 → fmt02d (n : Int) = twoDigits n := by
  decide

theorem quoInt_nonneg (r : Int) (h0 : 0 ≤ r) (h1 : r ≤ maxInt) : quoInt r 60 = r / 60 := by
  unfold quoInt
  rw [Int.tdiv_eq_ediv h0 (by decide)]
  unfold maxInt at h1
  exact wrapInt_of_range _ (by unfold minInt; omega) (by unfold maxInt; omega)

theorem remInt_nonneg (r : Int) (h0 : 0 ≤ r) : remInt r 60 = r % 60 := by
  unfold remInt
  exact Int.tmod_eq_emod h0 (by decide)

/-! ## Handlers: the three outcomes of an event -/

theorem foldl_sendMessage {σ : Type} (chatID : Int) :
    ∀ (chunks : List String) (w : World σ),
      chunks.foldl (fun acc chunk => sendMessage chatID chunk acc) w
        = { redis := w.redis, sent := w.sent ++ chunks.map (fun c => (chatID, c)) } := by
  intro chunks
  induction chunks with
  | nil => intro w; simp
  | cons c cs ih =>
    intro w
    rw [List.foldl_cons, ih]
    simp [sendMessage]

theorem step_denied {σ : Type} (svc : RedisService σ) (e : Event) (w : World σ)
    (msg : String) (s1 : σ) (h : e.admission svc w.redis = (some msg, s1)) :
    step svc e w = some { redis := s1, sent := w.sent ++ [(e.update.chatID, msg)] } := by
  cases e <;>
    simp only [Event.admission, Event.duration, Event.update, Event.isPremium, Event.bot] at h <;>
    simp only [step, handleAudio, handleVoice, h, sendMessage, Event.update]

theorem step_decode_failed {σ : Type} (svc : RedisService σ) (e : Event) (w : World σ)
    (s1 : σ) (h : e.admission svc w.redis = (none, s1))
    (hd : (decodeAudioFile e.bot e.fileID).2 ≠ none) :
    step svc e w = some { redis := s1, sent := w.sent ++
      [(e.update.chatID, decodingNotice), (e.update.chatID, decodeFailureMessage)] } := by
  rcases hdec : decodeAudioFile e.bot e.fileID with ⟨text, _ | x⟩
  · rw [hdec] at hd; exact absurd rfl hd
  · cases e <;>
      simp only [Event.admission, Event.duration, Event.update, Event.isPremium, Event.bot,
        Event.fileID] at h hdec <;>
      simp [step, handleAudio, handleVoice, h, hdec, sendMessage, Event.update,
        decodingNotice, decodeFailureMessage]

theorem step_decoded {σ : Type} (svc : RedisService σ) (e : Event) (w : World σ)
    (s1 s2 : σ) (text : String) (timeSpent : Int) (err : Option String)
    (h : e.admission svc w.redis = (none, s1))
    (hd : decodeAudioFile e.bot e.fileID = (text, none))
    (hi : e.increment svc s1 = ((timeSpent, err), s2)) :
    step svc e w = some { redis := s2, sent := w.sent ++
      ([(e.update.chatID, decodingNotice), (e.update.chatID, e.header)]
        ++ (chunkList 4000 text.length text.data).map (fun c => (e.update.chatID, c))
        ++ [(e.update.chatID, remainingMessage (tierCap e.isPremium) timeSpent)]) } := by
  cases e <;>
    simp only [Event.admission, Event.duration, Event.update, Event.isPremium, Event.bot,
      Event.fileID, Event.increment, Event.header] at h hd hi ⊢ <;>
    simp only [step, handleAudio, handleVoice, h, hd, paginateText_maxMessageLength,
      foldl_sendMessage] <;>
    split_ifs at hi ⊢ with hp hq <;>
    simp_all [tierCap, decodingNotice, sendMessage]

/-! ## Admission controller: theorems -/

theorem fmt02d_fields (r : Int) (h0 : 0 ≤ r) (h1 : r ≤ 3600) :
    fmt02d (quoInt r 60) = twoDigits (r / 60).toNat
      ∧ fmt02d (remInt r 60) = twoDigits (r % 60).toNat := by
  rw [quoInt_nonneg r h0 (by unfold maxInt; omega), remInt_nonneg r h0]
  constructor
  · have e : r / 60 = (((r / 60).toNat : Nat) : Int) := by omega
    rw [e, fmt02d_twoDigits _ (by omega), ← e]
  · have e : r % 60 = (((r % 60).toNat : Nat) : Int) := by omega
    rw [e, fmt02d_twoDigits _ (by omega), ← e]

theorem checkEnoughTime_eq_none_iff (d c : Int) (h1 : minInt ≤ d + c) (h2 : d + c ≤ maxInt) :
    checkEnoughTime d c = none ↔ d + c ≤ 300 := by
  unfold checkEnoughTime addInt unpremiumMaxAudioDuration
  rw [wrapInt_of_range _ h1 h2]
  split_ifs with h
  · simp; omega
  · simp; omega

theorem isAudioDurationAllowed_read {σ : Type} (svc : RedisService σ) (d userId c : Int)
    (userName : String) (s s1 : σ) (hd : d ≤ 300)
    (hread : svc.GetUnpremiumTimeSpent userId s = ((c, none), s1)) :
    isAudioDurationAllowed svc d userId userName false s = (checkEnoughTime d c, s1) := by
  unfold isAudioDurationAllowed unpremiumMaxAudioDuration
  have h : ¬ d > 300 := by omega
  simp only [Bool.false_eq_true, if_false, h, hread]

/-- Away from the top of the `int` range the free-tier admission rule is the
one of the specification: a request of duration `d` by a user whose read
returns `c ≥ 0` is granted exactly when `d ≤ 300 - c`. -/
theorem isAudioDurationAllowed_grant_iff {σ : Type} (svc : RedisService σ) (d userId c : Int)
    (userName : String) (s s1 : σ) (hdmin : minInt ≤ d)
    (hc0 : 0 ≤ c) (hc : c ≤ maxInt - 300)
    (hread : svc.GetUnpremiumTimeSpent userId s = ((c, none), s1)) :
    (isAudioDurationAllowed svc d userId userName false s).1 = none ↔ d ≤ 300 - c := by
  by_cases hd : d ≤ 300
  · rw [isAudioDurationAllowed_read svc d userId c userName s s1 hd hread]
    simp only
    rw [checkEnoughTime_eq_none_iff d c (by unfold minInt at *; omega)
      (by unfold maxInt at *; omega)]
    omega
  · unfold isAudioDurationAllowed unpremiumMaxAudioDuration
    have h : d > 300 := by omega
    simp only [Bool.false_eq_true, if_false, h, if_true]
    constructor
    · intro h'; cases h'
    · intro h'; omega

/-- Why the bound `c ≤ maxInt - 300` above is there: at the very top of the `int`
range the sum of line 113 wraps around.  With a counter of
`9223372036854775807` and a request of one second the sum is negative and the
check passes.  No run produces such a counter (see `read_after_run_within_cap`). -/
theorem checkEnoughTime_wraps_at_maxInt :
    addInt 1 maxInt = minInt ∧ checkEnoughTime 1 maxInt = none := by
  decide

/-- C3. A free-tier request longer than 300 seconds is denied with the
too-long message (not the remaining-time message), whatever the ledger holds
and however it would answer: the store is returned as it was, no operation
is issued on it. -/
theorem isAudioDurationAllowed_too_long {σ : Type} (svc : RedisService σ)
    (d userId : Int) (userName : String) (s : σ) (hd : d > 300) :
    isAudioDurationAllowed svc d userId userName false s
      = (some "The audio file is too long. Only 5 minutes allowed for users without premium", s) := by
  unfold isAudioDurationAllowed unpremiumMaxAudioDuration
  simp only [Bool.false_eq_true, if_false, hd, if_true]
  rfl

theorem isAudioDurationAllowed_too_long_witness :
    (301 : Int) > 300
      ∧ isAudioDurationAllowed ledgerService 301 7 "Ann" false (ledgerWith 7 (some 0) none)
        = (some "The audio file is too long. Only 5 minutes allowed for users without premium",
            ledgerWith 7 (some 0) none) :=
  ⟨by decide, isAudioDurationAllowed_too_long ledgerService 301 7 "Ann" _ (by decide)⟩

/-- C7 (the claim fails at its own example). A free-tier user with 250 consumed
seconds who asks for 40 seconds is granted, not denied: 250 + 40 = 290 does
not exceed 300. -/
theorem isAudioDurationAllowed_250_40_granted :
    (Ledger.getConsumed 7 (ledgerWith 7 (some 250) none)).1 = (250, none)
      ∧ (isAudioDurationAllowed ledgerService 40 7 "Ann" false
          (ledgerWith 7 (some 250) none)).1 = none := by
  decide

/-- C7 (amended). A free-tier request with `d ≤ 300`, a successful read of
`0 ≤ c ≤ 300` and `c + d > 300` is denied with the remaining-time message, whose
fields are the two zero-padded digits of `(300 - c) div 60` and
`(300 - c) mod 60`; with `c = 250` it reads `00 minutes 50 seconds`. -/
theorem isAudioDurationAllowed_quota_exhausted {σ : Type} (svc : RedisService σ)
    (d userId c : Int) (userName : String) (s s1 : σ)
    (hd : d ≤ 300) (hc0 : 0 ≤ c) (hc : c ≤ 300) (hsum : c + d > 300)
    (hread : svc.GetUnpremiumTimeSpent userId s = ((c, none), s1)) :
    isAudioDurationAllowed svc d userId userName false s
      = (some ("Too long audio, you dont have enough free time, remaining time: "
          ++ twoDigits ((300 - c) / 60).toNat ++ " minutes "
          ++ twoDigits ((300 - c) % 60).toNat ++ " seconds"), s1)
      ∧ (c = 250 → isAudioDurationAllowed svc d userId userName false s
          = (some "Too long audio, you dont have enough free time, remaining time: 00 minutes 50 seconds",
              s1)) := by
  have key : isAudioDurationAllowed svc d userId userName false s
      = (some ("Too long audio, you dont have enough free time, remaining time: "
          ++ twoDigits ((300 - c) / 60).toNat ++ " minutes "
          ++ twoDigits ((300 - c) % 60).toNat ++ " seconds"), s1) := by
    rw [isAudioDurationAllowed_read svc d userId c userName s s1 hd hread]
    unfold checkEnoughTime addInt subInt unpremiumMaxAudioDuration
    rw [wrapInt_of_range (d + c) (by unfold minInt; omega) (by unfold maxInt; omega),
      wrapInt_of_range (300 - c) (by unfold minInt; omega) (by unfold maxInt; omega)]
    have h : d + c > 300 := by omega
    obtain ⟨e1, e2⟩ := fmt02d_fields (300 - c) (by omega) (by omega)
    simp only [h, if_true, e1, e2]
  refine ⟨key, ?_⟩
  intro h250
  rw [key, h250]
  rfl

theorem isAudioDurationAllowed_quota_exhausted_witness :
    (60 : Int) ≤ 300 ∧ (0 : Int) ≤ 250 ∧ (250 : Int) ≤ 300 ∧ (250 : Int) + 60 > 300
      ∧ ledgerService.GetUnpremiumTimeSpent 7 (ledgerWith 7 (some 250) none)
          = ((250, none), (Ledger.getConsumed 7 (ledgerWith 7 (some 250) none)).2)
      ∧ isAudioDurationAllowed ledgerService 60 7 "Ann" false (ledgerWith 7 (some 250) none)
          = (some "Too long audio, you dont have enough free time, remaining time: 00 minutes 50 seconds",
              (Ledger.getConsumed 7 (ledgerWith 7 (some 250) none)).2) :=
  ⟨by decide, by decide, by decide, by decide, rfl,
    (isAudioDurationAllowed_quota_exhausted ledgerService 60 7 250 "Ann"
      (ledgerWith 7 (some 250) none) (Ledger.getConsumed 7 (ledgerWith 7 (some 250) none)).2
      (by decide) (by decide) (by decide) (by decide) rfl).2 rfl⟩

/-- C10. A free-tier request of at most 300 seconds whose read fails with
`User doesn't exist` (Go's zero value next to the error) makes
`isAudioDurationAllowed` create the record and, when that succeeds, return `nil`
with the store as `SaveUnpremiumUser` left it: the error is not surfaced, and
the outcome is the one of a user whose read succeeds with zero seconds. -/
theorem isAudioDurationAllowed_bootstrap {σ : Type} (svc : RedisService σ)
    (d userId : Int) (userName : String) (s s1 s2 : σ)
    (hdmin : minInt ≤ d) (hd : d ≤ 300)
    (hread : svc.GetUnpremiumTimeSpent userId s = ((0, some "User doesn\x27t exist"), s1))
    (hsave : svc.SaveUnpremiumUser userId s1 = (none, s2)) :
    isAudioDurationAllowed svc d userId userName false s = (none, s2)
      ∧ ∀ (τ : Type) (svc0 : RedisService τ) (t t1 : τ),
          svc0.GetUnpremiumTimeSpent userId t = ((0, none), t1) →
          (isAudioDurationAllowed svc0 d userId userName false t).1
            = (isAudioDurationAllowed svc d userId userName false s).1 := by
  have hz : checkEnoughTime d 0 = none := by
    rw [checkEnoughTime_eq_none_iff d 0 (by unfold minInt at *; omega)
      (by unfold maxInt; omega)]
    omega
  have key : isAudioDurationAllowed svc d userId userName false s = (none, s2) := by
    unfold isAudioDurationAllowed unpremiumMaxAudioDuration
    have h : ¬ d > 300 := by omega
    simp only [Bool.false_eq_true, if_false, h, hread, hsave, hz]
    simp
  refine ⟨key, ?_⟩
  intro τ svc0 t t1 h0
  rw [isAudioDurationAllowed_read svc0 d userId 0 userName t t1 hd h0, key, hz]

theorem isAudioDurationAllowed_bootstrap_witness :
    minInt ≤ (120 : Int) ∧ (120 : Int) ≤ 300
      ∧ ledgerService.GetUnpremiumTimeSpent 7 emptyLedger
          = ((0, some "User doesn\x27t exist"), (Ledger.getConsumed 7 emptyLedger).2)
      ∧ ledgerService.SaveUnpremiumUser 7 (Ledger.getConsumed 7 emptyLedger).2
          = (none, (Ledger.initializeUser 7 (Ledger.getConsumed 7 emptyLedger).2).2)
      ∧ isAudioDurationAllowed ledgerService 120 7 "Ann" false emptyLedger
          = (none, (Ledger.initializeUser 7 (Ledger.getConsumed 7 emptyLedger).2).2) :=
  ⟨by decide, by decide, rfl, rfl,
    (isAudioDurationAllowed_bootstrap ledgerService 120 7 "Ann" emptyLedger
      (Ledger.getConsumed 7 emptyLedger).2
      (Ledger.initializeUser 7 (Ledger.getConsumed 7 emptyLedger).2).2
      (by decide) (by decide) rfl rfl).1⟩

/-! ## Admission on the ledger -/

theorem admission_ledger_store (e : Event) (l : Ledger) :
    (e.admission ledgerService l).2 =
      if e.isPremium = true ∨ e.duration > 300 then l
      else match (l.records e.update.fromID).free with
        | none =>
          { records := l.setRecord e.update.fromID
              { l.records e.update.fromID with free := some 0 },
            calls := l.calls ++ [LedgerCall.getConsumed e.update.fromID,
              LedgerCall.initializeUser e.update.fromID] }
        | some _ =>
          { records := l.records,
            calls := l.calls ++ [LedgerCall.getConsumed e.update.fromID] } := by
  unfold Event.admission isAudioDurationAllowed unpremiumMaxAudioDuration
  by_cases hp : e.isPremium = true
  · simp [hp]
  · by_cases hd : e.duration > 300
    · simp [hp, hd]
    · simp only [hp, hd, or_self, if_false, ledgerService, Ledger.getConsumed]
      cases hf : (l.records e.update.fromID).free with
      | none =>
        simp [Ledger.initializeUser, hf]
        rfl
      | some c =>
        by_cases hb : (l.records e.update.fromID).blocked = true
        · simp [hb]
        · simp [hb]

theorem admission_ledger_granted (e : Event) (l : Ledger)
    (hg : (e.admission ledgerService l).1 = none) (hp : e.isPremium = false) :
    e.duration ≤ 300
      ∧ checkEnoughTime e.duration ((l.records e.update.fromID).free.getD 0) = none := by
  unfold Event.admission isAudioDurationAllowed unpremiumMaxAudioDuration at hg
  by_cases hd : e.duration > 300
  · simp [hp, hd] at hg
  · refine ⟨by omega, ?_⟩
    simp only [hp, hd, Bool.false_eq_true, if_false, ledgerService, Ledger.getConsumed] at hg
    cases hf : (l.records e.update.fromID).free with
    | none =>
      simpa [Ledger.initializeUser, hf] using hg
    | some c =>
      by_cases hb : (l.records e.update.fromID).blocked = true
      · simp [hb, hf] at hg
      · simpa [hb, hf] using hg

theorem admission_records (e : Event) (l : Ledger) (u : Int) :
    ((e.admission ledgerService l).2.records u).premium = (l.records u).premium
      ∧ ((e.admission ledgerService l).2.records u).blocked = (l.records u).blocked
      ∧ ((e.admission ledgerService l).2.records u).free.getD 0 = (l.records u).free.getD 0
      ∧ ((l.records u).free ≠ none →
          ((e.admission ledgerService l).2.records u).free = (l.records u).free) := by
  rw [admission_ledger_store]
  split_ifs with h
  · simp
  · cases hf : (l.records e.update.fromID).free with
    | none =>
      simp only [Ledger.setRecord]
      by_cases hu : u = e.update.fromID
      · subst hu
        simp [hf]
      · simp [hu]
    | some c => simp

theorem admission_free_within_cap (e : Event) (l : Ledger) (h : FreeWithinCap l) :
    FreeWithinCap (e.admission ledgerService l).2 := by
  intro u c hc
  obtain ⟨-, -, h3, h4⟩ := admission_records e l u
  cases hf : (l.records u).free with
  | none =>
    rw [hc, hf] at h3
    simp only [Option.getD_some, Option.getD_none] at h3
    subst h3
    decide
  | some c0 =>
    rw [h4 (by rw [hf]; simp), hf] at hc
    have hcc : c0 = c := by simpa using hc
    exact hcc ▸ h u c0 hf

theorem checkEnoughTime_none_le (d c : Int) (hd : d ≤ 300) (hc : c ≤ 300)
    (h : checkEnoughTime d c = none) : c + d ≤ 300 := by
  unfold checkEnoughTime addInt wrapInt unpremiumMaxAudioDuration at h
  split_ifs at h with h1
  omega

theorem increment_free_within_cap (e : Event) (l : Ledger) (h : FreeWithinCap l)
    (hsum : e.isPremium = false → (l.records e.update.fromID).free.getD 0 + e.duration ≤ 300) :
    FreeWithinCap (e.increment ledgerService l).2 := by
  intro u c hc
  unfold Event.increment at hc
  by_cases hp : e.isPremium = true
  · simp only [hp, if_true, ledgerService, Ledger.incrementPremium, Ledger.setRecord] at hc
    by_cases hu : u = e.update.fromID
    · subst hu
      simp only [if_true] at hc
      exact h _ c hc
    · simp only [hu, if_false] at hc
      exact h u c hc
  · simp only [hp, if_false, ledgerService, Ledger.incrementFree, Ledger.setRecord,
      Bool.false_eq_true] at hc
    by_cases hu : u = e.update.fromID
    · subst hu
      simp only [if_true, Option.some.injEq] at hc
      have := hsum (by simpa using hp)
      unfold unpremiumMaxAudioDuration
      omega
    · simp only [hu, if_false] at hc
      exact h u c hc

theorem step_free_within_cap (e : Event) (w : World Ledger) (h : FreeWithinCap w.redis) :
    ∃ w1, step ledgerService e w = some w1 ∧ FreeWithinCap w1.redis := by
  have hinv := admission_free_within_cap e w.redis h
  rcases hadm : e.admission ledgerService w.redis with ⟨_ | msg, s1⟩
  · rw [hadm] at hinv
    rcases hdec : decodeAudioFile e.bot e.fileID with ⟨text, _ | x⟩
    · rcases hinc : e.increment ledgerService s1 with ⟨⟨t, err⟩, s2⟩
      refine ⟨_, step_decoded ledgerService e w s1 s2 text t err hadm hdec hinc, ?_⟩
      have h2 := increment_free_within_cap e s1 hinv (by
        intro hp
        obtain ⟨hd, hce⟩ := admission_ledger_granted e w.redis (by rw [hadm]) hp
        obtain ⟨-, -, h3, -⟩ := admission_records e w.redis e.update.fromID
        rw [hadm] at h3
        simp only at h3
        rw [h3]
        have hc : (w.redis.records e.update.fromID).free.getD 0 ≤ 300 := by
          cases hf : (w.redis.records e.update.fromID).free with
          | none => simp
          | some c0 => simpa using h _ c0 hf
        exact checkEnoughTime_none_le _ _ hd hc hce)
      rw [hinc] at h2
      exact h2
    · exact ⟨_, step_decode_failed ledgerService e w s1 hadm (by rw [hdec]; simp), hinv⟩
  · rw [hadm] at hinv
    exact ⟨_, step_denied ledgerService e w msg s1 hadm, hinv⟩

theorem run_free_within_cap (events : List Event) :
    ∀ (w : World Ledger), FreeWithinCap w.redis →
      ∃ w1, run ledgerService events w = some w1 ∧ FreeWithinCap w1.redis := by
  induction events with
  | nil => intro w h; exact ⟨w, rfl, h⟩
  | cons e es ih =>
    intro w h
    obtain ⟨w1, h1, h2⟩ := step_free_within_cap e w h
    obtain ⟨w2, h3, h4⟩ := ih w1 h2
    exact ⟨w2, by simp only [run, h1, h3], h4⟩

theorem ledgerWith_free_within_cap (userId c : Int) (premium : Option Int)
    (h : c ≤ unpremiumMaxAudioDuration) : FreeWithinCap (ledgerWith userId (some c) premium) := by
  intro u c1 hc
  unfold ledgerWith Ledger.setRecord emptyLedger at hc
  by_cases hu : u = userId
  · simp only [hu, if_true, Option.some.injEq] at hc
    exact hc ▸ h
  · simp [hu] at hc

/-! ## Decode failure and the ledger -/

theorem admission_record_eq (e : Event) (l : Ledger) (u : Int)
    (h : ¬ (u = e.update.fromID ∧ e.isPremium = false
      ∧ (l.records e.update.fromID).free = none)) :
    (e.admission ledgerService l).2.records u = l.records u := by
  rw [admission_ledger_store]
  split_ifs with h1
  · rfl
  · cases hf : (l.records e.update.fromID).free with
    | none =>
      simp only [Ledger.setRecord]
      by_cases hu : u = e.update.fromID
      · exfalso
        apply h
        refine ⟨hu, ?_, hf⟩
        cases hp : e.isPremium
        · rfl
        · exact absurd (Or.inl hp) h1
      · simp [hu]
    | some c => rfl

theorem admission_calls (e : Event) (l : Ledger)
    (hg : (e.admission ledgerService l).1 = none) :
    (e.admission ledgerService l).2.calls = l.calls ++
      (if e.isPremium = true then []
        else if (l.records e.update.fromID).free = none then
          [LedgerCall.getConsumed e.update.fromID, LedgerCall.initializeUser e.update.fromID]
        else [LedgerCall.getConsumed e.update.fromID]) := by
  rw [admission_ledger_store]
  by_cases hp : e.isPremium = true
  · simp [hp]
  · have hp0 : e.isPremium = false := by simpa using hp
    obtain ⟨hd, -⟩ := admission_ledger_granted e l hg hp0
    have hd2 : ¬ e.duration > 300 := by omega
    simp only [hp, hd2, or_self, if_false]
    cases hf : (l.records e.update.fromID).free <;> simp

/-- C6 (the claim fails for a first-seen free user). A free user without a
record sends an audio of 120 seconds and the transcription fails: the read
that failed with `User doesn't exist` before the event succeeds with zero
seconds after it, because the admission check has created the record. -/
theorem decode_failure_initializes_first_seen_user :
    (Ledger.getConsumed 7 emptyLedger).1 = (0, some "User doesn\x27t exist")
      ∧ (decodeAudioFile (botFailing false) "f").2 ≠ none
      ∧ (step ledgerService (Event.audio (botFailing false) (updateOf 120))
            { redis := emptyLedger, sent := [] }).map
          (fun w => ((Ledger.getConsumed 7 w.redis).1, w.sent.getLast?, w.redis.calls))
          = some ((0, none), some (1, "There was an error decoding the file"),
              [LedgerCall.getConsumed 7, LedgerCall.initializeUser 7]) := by
  decide

/-- C6 (amended). When an event is admitted and its transcription fails, the
handler returns after sending the decoding notice and the generic
decode-failure message; the only ledger operations issued are the read of the
admission check and, for a first-seen free user, the creation of the zero
record (no increment); every counter keeps its value; and `GetConsumed` returns
for every user what it returned before, except that for a first-seen free
sender the record now exists with zero seconds, so the read no longer fails
with `User doesn't exist`. -/
theorem decode_failure_leaves_counters (e : Event) (w : World Ledger)
    (hg : (e.admission ledgerService w.redis).1 = none)
    (hf : (decodeAudioFile e.bot e.fileID).2 ≠ none) :
    ∃ w1, step ledgerService e w = some w1
      ∧ w1.sent = w.sent ++
          [(e.update.chatID,
              "Decoding will take from 15% to 30% of file duration if it is not too short"),
            (e.update.chatID, "There was an error decoding the file")]
      ∧ w1.redis.calls = w.redis.calls ++
          (if e.isPremium = true then []
            else if (w.redis.records e.update.fromID).free = none then
              [LedgerCall.getConsumed e.update.fromID,
                LedgerCall.initializeUser e.update.fromID]
            else [LedgerCall.getConsumed e.update.fromID])
      ∧ (∀ u p, w1.redis.counter u p = w.redis.counter u p)
      ∧ (∀ u, ¬ (u = e.update.fromID ∧ e.isPremium = false
            ∧ (w.redis.records e.update.fromID).free = none) →
          (Ledger.getConsumed u w1.redis).1 = (Ledger.getConsumed u w.redis).1)
      ∧ (e.isPremium = false → (w.redis.records e.update.fromID).free = none →
          (Ledger.getConsumed e.update.fromID w.redis).1 = (0, some "User doesn\x27t exist")
            ∧ (w1.redis.records e.update.fromID).free = some 0
            ∧ (Ledger.getConsumed e.update.fromID w1.redis).1
                ≠ (0, some "User doesn\x27t exist")) := by
  have hcalls := admission_calls e w.redis hg
  have hstore := admission_ledger_store e w.redis
  rcases hadm : e.admission ledgerService w.redis with ⟨r, s1⟩
  rw [hadm] at hg hcalls hstore
  simp only at hg hcalls hstore
  subst hg
  refine ⟨_, step_decode_failed ledgerService e w s1 hadm hf, rfl, hcalls, ?_, ?_, ?_⟩
  · intro u p
    obtain ⟨h1, -, h3, -⟩ := admission_records e w.redis u
    rw [hadm] at h1 h3
    simp only at h1 h3
    unfold Ledger.counter
    cases p <;> simp [h1, h3]
  · intro u hu
    have h1 := admission_record_eq e w.redis u hu
    rw [hadm] at h1
    simp only at h1
    simp only [Ledger.getConsumed, h1]
    cases (w.redis.records u).free with
    | none => rfl
    | some c => split_ifs <;> rfl
  · intro hp hnone
    have hd : ¬ (e.isPremium = true ∨ e.duration > 300) := by
      obtain ⟨hd, -⟩ := admission_ledger_granted e w.redis (by rw [hadm]) hp
      simp only [hp, Bool.false_eq_true, false_or]
      omega
    rw [if_neg hd, hnone] at hstore
    simp only at hstore
    subst hstore
    by_cases hb : (w.redis.records e.update.fromID).blocked = true <;>
      simp [Ledger.getConsumed, hnone, Ledger.setRecord, hb]

theorem decode_failure_leaves_counters_witness :
    (Event.admission ledgerService (Event.voice (botFailing false) (updateOf 30))
        (ledgerWith 7 (some 250) none)).1 = none
      ∧ (decodeAudioFile (botFailing false) "f").2 ≠ none
      ∧ ∃ w1, step ledgerService (Event.voice (botFailing false) (updateOf 30))
            { redis := ledgerWith 7 (some 250) none, sent := [] } = some w1
          ∧ w1.sent = [(1, "Decoding will take from 15% to 30% of file duration if it is not too short"),
              (1, "There was an error decoding the file")]
          ∧ w1.redis.calls = [LedgerCall.getConsumed 7]
          ∧ (Ledger.getConsumed 7 w1.redis).1 = (250, none) := by
  refine ⟨by decide, by decide, ?_⟩
  obtain ⟨w1, h1, h2, h3, -, h5, -⟩ :=
    decode_failure_leaves_counters (Event.voice (botFailing false) (updateOf 30))
      { redis := ledgerWith 7 (some 250) none, sent := [] } (by decide) (by decide)
  refine ⟨w1, h1, h2, h3, ?_⟩
  rw [h5 7 (by decide)]
  decide

/-! ## The remaining-time message -/

theorem remainingMessage_within_cap (cap t : Int) (h0 : 0 ≤ cap - t) (h1 : cap - t ≤ 3600) :
    remainingMessage cap t = "Remaining free time: " ++ twoDigits ((cap - t) / 60).toNat
      ++ " minutes " ++ twoDigits ((cap - t) % 60).toNat ++ " seconds" := by
  unfold remainingMessage subInt
  rw [wrapInt_of_range (cap - t) (by unfold minInt; omega) (by unfold maxInt; omega)]
  obtain ⟨e1, e2⟩ := fmt02d_fields (cap - t) h0 h1
  simp only [e1, e2]

theorem increment_ledger (e : Event) (l : Ledger) :
    (e.increment ledgerService l).1
        = (l.counter e.update.fromID e.isPremium + e.duration, none)
      ∧ (e.increment ledgerService l).2.counter e.update.fromID e.isPremium
        = l.counter e.update.fromID e.isPremium + e.duration := by
  unfold Event.increment Ledger.counter
  cases hp : e.isPremium <;>
    simp [ledgerService, Ledger.incrementFree, Ledger.incrementPremium, Ledger.setRecord]

theorem getLast?_sent {α : Type} (l m : List α) (a : α) : (l ++ (m ++ [a])).getLast? = some a := by
  rw [← List.append_assoc]
  simp

/-- C8. An admitted and decoded request of `d ≥ 0` seconds by a user whose
counter for their tier was `c ≥ 0`, with `c + d` within the tier cap, leaves the
counter at `c + d`, and the last message sent is `Remaining free time: MM minutes
SS seconds`, where `MM` and `SS` are the whole minutes and leftover seconds of
`cap - (c + d)`, each printed as two zero-padded digits; a free user at 250
who asks for 30 ends at 280 and reads `00 minutes 20 seconds`. -/
theorem step_reports_remaining_time (e : Event) (w : World Ledger) (c : Int) (text : String)
    (hc : w.redis.counter e.update.fromID e.isPremium = c)
    (hc0 : 0 ≤ c) (hd0 : 0 ≤ e.duration) (hcap : c + e.duration ≤ tierCap e.isPremium)
    (hg : (e.admission ledgerService w.redis).1 = none)
    (hdec : decodeAudioFile e.bot e.fileID = (text, none)) :
    ∃ w1, step ledgerService e w = some w1
      ∧ w1.redis.counter e.update.fromID e.isPremium = c + e.duration
      ∧ (∃ MM SS : Nat,
          (MM : Int) = (tierCap e.isPremium - (c + e.duration)) / 60
          ∧ (SS : Int) = (tierCap e.isPremium - (c + e.duration)) % 60
          ∧ 60 * (MM : Int) + (SS : Int) = tierCap e.isPremium - (c + e.duration)
          ∧ SS < 60 ∧ MM < 100
          ∧ w1.sent.getLast? = some (e.update.chatID,
              "Remaining free time: " ++ twoDigits MM ++ " minutes " ++ twoDigits SS
                ++ " seconds"))
      ∧ (e.isPremium = false → c = 250 → e.duration = 30 →
          w1.redis.counter e.update.fromID false = 280
            ∧ w1.sent.getLast? = some (e.update.chatID,
                "Remaining free time: 00 minutes 20 seconds")) := by
  rcases hadm : e.admission ledgerService w.redis with ⟨r, s1⟩
  rw [hadm] at hg
  simp only at hg
  subst hg
  have hs1 : s1.counter e.update.fromID e.isPremium = c := by
    obtain ⟨h1, -, h3, -⟩ := admission_records e w.redis e.update.fromID
    rw [hadm] at h1 h3
    simp only at h1 h3
    rw [← hc]
    unfold Ledger.counter
    cases e.isPremium <;> simp [h1, h3]
  obtain ⟨hi1, hi2⟩ := increment_ledger e s1
  rw [hs1] at hi1 hi2
  rcases hinc : e.increment ledgerService s1 with ⟨⟨t, err⟩, s2⟩
  rw [hinc] at hi1 hi2
  simp only [Prod.mk.injEq] at hi1
  obtain ⟨ht, -⟩ := hi1
  subst ht
  have hcapb : tierCap e.isPremium ≤ 3600 := by
    unfold tierCap premiumMaxAudioDuration unpremiumMaxAudioDuration
    split_ifs <;> decide
  have hmsg := remainingMessage_within_cap (tierCap e.isPremium) (c + e.duration)
    (by omega) (by omega)
  have hstep := step_decoded ledgerService e w s1 s2 text (c + e.duration) err hadm hdec hinc
  refine ⟨_, hstep, hi2, ⟨((tierCap e.isPremium - (c + e.duration)) / 60).toNat,
    ((tierCap e.isPremium - (c + e.duration)) % 60).toNat, by omega, by omega, by omega,
    by omega, by omega, ?_⟩, ?_⟩
  · simp only
    rw [getLast?_sent, hmsg]
  · intro hp h250 h30
    rw [hp] at hi2
    refine ⟨by rw [hi2, h250, h30]; rfl, ?_⟩
    simp only
    rw [getLast?_sent, hp, h250, h30]
    rfl

theorem step_reports_remaining_time_witness :
    (ledgerWith 7 (some 250) none).counter 7 false = 250
      ∧ (0 : Int) ≤ 250 ∧ (0 : Int) ≤ 30 ∧ (250 : Int) + 30 ≤ tierCap false
      ∧ (Event.admission ledgerService (Event.audio (botDecoding false "hello") (updateOf 30))
          (ledgerWith 7 (some 250) none)).1 = none
      ∧ decodeAudioFile (botDecoding false "hello") "f" = ("hello", none)
      ∧ ∃ w1, step ledgerService (Event.audio (botDecoding false "hello") (updateOf 30))
            { redis := ledgerWith 7 (some 250) none, sent := [] } = some w1
          ∧ w1.redis.counter 7 false = 280
          ∧ w1.sent.getLast? = some (1, "Remaining free time: 00 minutes 20 seconds") := by
  refine ⟨by decide, by decide, by decide, by decide, by decide, by decide, ?_⟩
  obtain ⟨w1, h1, -, -, h4⟩ :=
    step_reports_remaining_time (Event.audio (botDecoding false "hello") (updateOf 30))
      { redis := ledgerWith 7 (some 250) none, sent := [] } 250 "hello"
      (by decide) (by decide) (by decide) (by decide) (by decide) (by decide)
  exact ⟨w1, h1, h4 rfl rfl rfl⟩

/-! ## The remaining-time message past the cap -/

theorem tdiv_tmod_neg (a : Int) (ha : 0 ≤ a) :
    Int.tdiv (-a) 60 = -(a / 60) ∧ Int.tmod (-a) 60 = -(a % 60) := by
  have h1 : Int.tdiv (-a) 60 = -(a / 60) := by
    rw [Int.neg_tdiv, Int.tdiv_eq_ediv ha (by decide)]
  refine ⟨h1, ?_⟩
  rw [Int.tmod_def, h1]
  omega

theorem remainingMessage_over_cap (cap t : Int) (h0 : cap < t) (h1 : t - cap ≤ maxInt) :
    remainingMessage cap t = "Remaining free time: " ++ fmt02d (-((t - cap) / 60))
      ++ " minutes " ++ fmt02d (-((t - cap) % 60)) ++ " seconds" := by
  unfold maxInt at h1
  unfold remainingMessage subInt quoInt remInt
  rw [wrapInt_of_range (cap - t) (by unfold minInt; omega) (by unfold maxInt; omega)]
  have e : cap - t = -(t - cap) := by omega
  obtain ⟨e1, e2⟩ := tdiv_tmod_neg (t - cap) (by omega)
  rw [e]
  simp only [e1, e2]
  rw [wrapInt_of_range _ (by unfold minInt; omega) (by unfold maxInt; omega)]

theorem fmt02d_neg_data (n : Int) (h : n < 0) : ∃ tl, (fmt02d n).data = '-' :: tl := by
  unfold fmt02d
  simp only [h, if_true, String.data_append]
  exact ⟨_, rfl⟩

theorem remaining_fields_ne_zeros (m sec : Int) (hm : m ≤ 0) (h : m < 0 ∨ sec < 0) :
    "Remaining free time: " ++ fmt02d m ++ " minutes " ++ fmt02d sec ++ " seconds"
      ≠ "Remaining free time: 00 minutes 00 seconds" := by
  intro heq
  have e : "Remaining free time: 00 minutes 00 seconds"
      = "Remaining free time: " ++ "00" ++ " minutes " ++ "00" ++ " seconds" := by decide
  rw [e] at heq
  have hd := congrArg String.data heq
  simp only [String.data_append, List.append_assoc] at hd
  have hd1 := List.append_cancel_left hd
  by_cases hneg : m < 0
  · obtain ⟨tl, htl⟩ := fmt02d_neg_data m hneg
    rw [htl] at hd1
    simp at hd1
  · have hm0 : m = 0 := by omega
    have hs : sec < 0 := by
      rcases h with h | h
      · exact absurd h hneg
      · exact h
    subst hm0
    have hz : fmt02d 0 = "00" := by decide
    have h00 : ("00" : String).data = ['0', '0'] := rfl
    rw [hz, h00] at hd1
    have hd2 := List.append_cancel_left (List.append_cancel_left hd1)
    obtain ⟨tl, htl⟩ := fmt02d_neg_data sec hs
    rw [htl] at hd2
    simp at hd2

/-- C9 (the claim fails: the display is not clamped). A premium user at 3550
seconds sends a voice message of 100 seconds: the total becomes 3650, past the
cap of 3600, and the last message reads `00 minutes -50 seconds`. -/
theorem remaining_time_not_clamped :
    (step ledgerService (Event.voice (botDecoding true "hello") (updateOf 100))
        { redis := ledgerWith 7 none (some 3550), sent := [] }).map
      (fun w => (w.redis.counter 7 true, w.sent.getLast?))
      = some (3650, some (1, "Remaining free time: 00 minutes -50 seconds"))
      ∧ tierCap true - 3650 < 0 := by
  decide

/-- C9 (amended). When the total `t` the increment returns exceeds the tier
cap, the last message is not clamped: its fields are Go's truncated quotient
and remainder of `cap - t` by 60, that is `-((t - cap) div 60)` minutes and
`-((t - cap) mod 60)` seconds, printed by `%02d`; neither is positive, at least
one is negative and is printed with its minus sign, so the message is never
`00 minutes 00 seconds`. -/
theorem step_remaining_time_over_cap {σ : Type} (svc : RedisService σ) (e : Event)
    (w : World σ) (s1 s2 : σ) (text : String) (t : Int) (err : Option String)
    (hadm : e.admission svc w.redis = (none, s1))
    (hdec : decodeAudioFile e.bot e.fileID = (text, none))
    (hinc : e.increment svc s1 = ((t, err), s2))
    (hover : tierCap e.isPremium < t) (hmax : t ≤ maxInt) :
    ∃ w1, step svc e w = some w1
      ∧ ∃ m sec : Int,
          m = -((t - tierCap e.isPremium) / 60)
          ∧ sec = -((t - tierCap e.isPremium) % 60)
          ∧ 60 * m + sec = tierCap e.isPremium - t
          ∧ m ≤ 0 ∧ -60 < sec ∧ sec ≤ 0 ∧ (m < 0 ∨ sec < 0)
          ∧ w1.sent.getLast? = some (e.update.chatID,
              "Remaining free time: " ++ fmt02d m ++ " minutes " ++ fmt02d sec ++ " seconds")
          ∧ w1.sent.getLast? ≠ some (e.update.chatID,
              "Remaining free time: 00 minutes 00 seconds") := by
  have hcap0 : 0 ≤ tierCap e.isPremium := by
    unfold tierCap premiumMaxAudioDuration unpremiumMaxAudioDuration
    split_ifs <;> decide
  have hmsg := remainingMessage_over_cap (tierCap e.isPremium) t hover (by omega)
  have hstep := step_decoded svc e w s1 s2 text t err hadm hdec hinc
  have hm : -((t - tierCap e.isPremium) / 60) ≤ 0 := by omega
  have hs : -((t - tierCap e.isPremium) % 60) < 0 ∨ -((t - tierCap e.isPremium) / 60) < 0 := by
    omega
  have hlast : ({ redis := s2, sent := w.sent ++
      ([(e.update.chatID, decodingNotice), (e.update.chatID, e.header)]
        ++ (chunkList 4000 text.length text.data).map (fun c => (e.update.chatID, c))
        ++ [(e.update.chatID, remainingMessage (tierCap e.isPremium) t)]) } : World σ).sent.getLast?
      = some (e.update.chatID, "Remaining free time: "
          ++ fmt02d (-((t - tierCap e.isPremium) / 60)) ++ " minutes "
          ++ fmt02d (-((t - tierCap e.isPremium) % 60)) ++ " seconds") := by
    simp only
    rw [getLast?_sent, hmsg]
  refine ⟨_, hstep, _, _, rfl, rfl, by omega, hm, by omega, by omega, hs.symm, hlast, ?_⟩
  rw [hlast]
  intro hcontra
  simp only [Option.some.injEq, Prod.mk.injEq, true_and] at hcontra
  exact remaining_fields_ne_zeros _ _ hm hs.symm hcontra

theorem step_remaining_time_over_cap_witness :
    Event.admission ledgerService (Event.audio (botDecoding true "hello") (updateOf 40))
        (ledgerWith 7 none (some 3590)) = (none, ledgerWith 7 none (some 3590))
      ∧ decodeAudioFile (botDecoding true "hello") "f" = ("hello", none)
      ∧ Event.increment ledgerService (Event.audio (botDecoding true "hello") (updateOf 40))
          (ledgerWith 7 none (some 3590))
          = ((3630, none), (Ledger.incrementPremium 7 40 (ledgerWith 7 none (some 3590))).2)
      ∧ tierCap true < 3630 ∧ (3630 : Int) ≤ maxInt
      ∧ ∃ w1, step ledgerService (Event.audio (botDecoding true "hello") (updateOf 40))
            { redis := ledgerWith 7 none (some 3590), sent := [] } = some w1
          ∧ w1.sent.getLast? ≠ some (1, "Remaining free time: 00 minutes 00 seconds") := by
  refine ⟨rfl, rfl, rfl, by decide, by decide, ?_⟩
  obtain ⟨w1, h1, m, sec, -, -, -, -, -, -, -, -, h9⟩ :=
    step_remaining_time_over_cap ledgerService
      (Event.audio (botDecoding true "hello") (updateOf 40))
      { redis := ledgerWith 7 none (some 3590), sent := [] }
      (ledgerWith 7 none (some 3590))
      (Ledger.incrementPremium 7 40 (ledgerWith 7 none (some 3590))).2
      "hello" 3630 none rfl rfl rfl (by decide) (by decide)
  exact ⟨w1, h1, h9⟩

/-! ## Runs over a store that can be unavailable -/

theorem freeWithinCap_setRecord (l : Ledger) (userId : Int) (r : UsageRecord)
    (calls : List LedgerCall) (h : FreeWithinCap l)
    (hr : ∀ c, r.free = some c → c ≤ unpremiumMaxAudioDuration) :
    FreeWithinCap { records := l.setRecord userId r, calls := calls } := by
  intro u c hc
  simp only [Ledger.setRecord] at hc
  by_cases hu : u = userId
  · simp only [hu, if_true] at hc
    exact hr c hc
  · simp only [hu, if_false] at hc
    exact h u c hc

theorem ledger_getConsumed_cases (userId : Int) (l : Ledger) :
    (Ledger.getConsumed userId l).2.records = l.records
      ∧ (((l.records userId).free = none
            ∧ (Ledger.getConsumed userId l).1 = (0, some "User doesn\x27t exist"))
        ∨ (∃ c, (l.records userId).free = some c
            ∧ (Ledger.getConsumed userId l).1 = (0, some "Max time exceeded"))
        ∨ (∃ c, (l.records userId).free = some c
            ∧ (Ledger.getConsumed userId l).1 = (c, none))) := by
  unfold Ledger.getConsumed
  cases hf : (l.records userId).free with
  | none => simp
  | some c =>
    by_cases hb : (l.records userId).blocked = true <;> simp [hb]

theorem faulty_read (userId : Int) (s : FaultyLedger) (h : ReadsSucceed s) :
    ∃ s1, FaultyLedger.getConsumed userId s = ((Ledger.getConsumed userId s.ledger).1, s1)
      ∧ s1.ledger = (Ledger.getConsumed userId s.ledger).2
      ∧ ReadsSucceed s1 := by
  unfold FaultyLedger.getConsumed
  rcases hrf : s.readFaults with _ | ⟨f, rest⟩
  · exact ⟨_, rfl, rfl, by intro f hf; simp [hrf] at hf⟩
  · have hf : f = none := h f (by rw [hrf]; simp)
    subst hf
    refine ⟨_, rfl, rfl, ?_⟩
    intro f hf
    exact h f (by rw [hrf]; exact List.mem_cons_of_mem _ hf)

theorem faulty_save (userId : Int) (s : FaultyLedger) :
    (∃ m s1, FaultyLedger.initializeUser userId s = (some m, s1)
          ∧ s1.ledger = s.ledger ∧ s1.readFaults = s.readFaults)
      ∨ (∃ s1, FaultyLedger.initializeUser userId s = (none, s1)
          ∧ s1.ledger = (Ledger.initializeUser userId s.ledger).2
          ∧ s1.readFaults = s.readFaults) := by
  unfold FaultyLedger.initializeUser
  rcases s.saveFaults with _ | ⟨_ | m, rest⟩
  · exact Or.inr ⟨_, rfl, rfl, rfl⟩
  · exact Or.inr ⟨_, rfl, rfl, rfl⟩
  · exact Or.inl ⟨m, _, rfl, rfl, rfl⟩

theorem ledger_initializeUser_free (userId : Int) (l : Ledger) (h : FreeWithinCap l) :
    FreeWithinCap (Ledger.initializeUser userId l).2
      ∧ ((l.records userId).free = none →
          ((Ledger.initializeUser userId l).2.records userId).free = some 0) := by
  unfold Ledger.initializeUser
  constructor
  · apply freeWithinCap_setRecord l userId _ _ h
    intro c hc
    cases hf : (l.records userId).free with
    | none =>
      simp only [hf, Option.some.injEq] at hc
      subst hc
      decide
    | some c0 =>
      simp only [hf] at hc
      exact h userId c (by rw [hf, hc])
  · intro hf
    simp [hf, Ledger.setRecord]

theorem faulty_admission (e : Event) (s : FaultyLedger)
    (h1 : FreeWithinCap s.ledger) (h2 : ReadsSucceed s) :
    FreeWithinCap (e.admission faultyLedgerService s).2.ledger
      ∧ ReadsSucceed (e.admission faultyLedgerService s).2
      ∧ ((e.admission faultyLedgerService s).1 = none → e.isPremium = false →
          (((e.admission faultyLedgerService s).2.ledger.records e.update.fromID).free.getD 0
            + e.duration ≤ 300)) := by
  unfold Event.admission isAudioDurationAllowed unpremiumMaxAudioDuration
  by_cases hp : e.isPremium = true
  · simp [hp, h1, h2]
  · by_cases hd : e.duration > 300
    · simp [hp, hd, h1, h2]
    · have hd2 : e.duration ≤ 300 := by omega
      obtain ⟨s1, hg, hl1, hr1⟩ := faulty_read e.update.fromID s h2
      obtain ⟨hrec, hcases⟩ := ledger_getConsumed_cases e.update.fromID s.ledger
      have hinv1 : FreeWithinCap s1.ledger := by
        intro u c hc
        rw [hl1, hrec] at hc
        exact h1 u c hc
      have hp0 : e.isPremium = false := by simpa using hp
      simp only [hp0, Bool.false_eq_true, hd, if_false, faultyLedgerService, hg]
      rcases hcases with ⟨hnone, hv⟩ | ⟨c, hsome, hv⟩ | ⟨c, hsome, hv⟩
      · rw [hv]
        simp only [String.reduceEq, if_false, if_true]
        rcases faulty_save e.update.fromID s1 with ⟨m, s2, hs, hl2, hr2⟩ | ⟨s2, hs, hl2, hr2⟩
        · rw [hs]
          refine ⟨by rw [hl2]; exact hinv1, ?_, by intro hce; cases hce⟩
          intro f hf
          rw [hr2] at hf
          exact hr1 f hf
        · rw [hs]
          obtain ⟨hi1, hi2⟩ := ledger_initializeUser_free e.update.fromID s1.ledger hinv1
          refine ⟨by rw [hl2]; exact hi1, ?_, ?_⟩
          · intro f hf
            rw [hr2] at hf
            exact hr1 f hf
          · intro hce _
            simp only at hce
            have := checkEnoughTime_none_le _ _ hd2 (by decide) hce
            rw [hl2, hi2 (by rw [hl1, hrec]; exact hnone)]
            simpa using this
      · rw [hv]
        simp [hinv1, hr1]
      · rw [hv]
        refine ⟨hinv1, hr1, ?_⟩
        intro hce _
        simp only at hce
        have hc300 : c ≤ 300 := h1 _ c hsome
        have := checkEnoughTime_none_le _ _ hd2 hc300 hce
        rw [hl1, hrec, hsome]
        simpa using this

theorem faulty_increment (e : Event) (s : FaultyLedger)
    (h1 : FreeWithinCap s.ledger) (h2 : ReadsSucceed s)
    (hsum : e.isPremium = false →
      (s.ledger.records e.update.fromID).free.getD 0 + e.duration ≤ 300) :
    FreeWithinCap (e.increment faultyLedgerService s).2.ledger
      ∧ ReadsSucceed (e.increment faultyLedgerService s).2 := by
  have hideal := increment_free_within_cap e s.ledger h1 hsum
  unfold Event.increment at hideal ⊢
  cases hp : e.isPremium
  · simp only [hp, Bool.false_eq_true, if_false, ledgerService] at hideal
    simp only [Bool.false_eq_true, if_false, faultyLedgerService, FaultyLedger.incrementFree]
    rcases s.incrementFaults with _ | ⟨_ | m, rest⟩
    · exact ⟨hideal, h2⟩
    · exact ⟨hideal, h2⟩
    · exact ⟨h1, h2⟩
  · simp only [hp, if_true, ledgerService] at hideal
    simp only [if_true, faultyLedgerService, FaultyLedger.incrementPremium]
    rcases s.incrementFaults with _ | ⟨_ | m, rest⟩
    · exact ⟨hideal, h2⟩
    · exact ⟨hideal, h2⟩
    · exact ⟨h1, h2⟩

theorem faulty_step (e : Event) (w : World FaultyLedger)
    (h1 : FreeWithinCap w.redis.ledger) (h2 : ReadsSucceed w.redis) :
    ∃ w1, step faultyLedgerService e w = some w1
      ∧ FreeWithinCap w1.redis.ledger ∧ ReadsSucceed w1.redis := by
  obtain ⟨ha1, ha2, ha3⟩ := faulty_admission e w.redis h1 h2
  rcases hadm : e.admission faultyLedgerService w.redis with ⟨_ | msg, s1⟩
  · rw [hadm] at ha1 ha2 ha3
    rcases hdec : decodeAudioFile e.bot e.fileID with ⟨text, _ | x⟩
    · rcases hinc : e.increment faultyLedgerService s1 with ⟨⟨t, err⟩, s2⟩
      obtain ⟨hi1, hi2⟩ := faulty_increment e s1 ha1 ha2 (fun hp => ha3 rfl hp)
      rw [hinc] at hi1 hi2
      exact ⟨_, step_decoded faultyLedgerService e w s1 s2 text t err hadm hdec hinc, hi1, hi2⟩
    · exact ⟨_, step_decode_failed faultyLedgerService e w s1 hadm (by rw [hdec]; simp),
        ha1, ha2⟩
  · rw [hadm] at ha1 ha2
    exact ⟨_, step_denied faultyLedgerService e w msg s1 hadm, ha1, ha2⟩

theorem faulty_run (events : List Event) :
    ∀ (w : World FaultyLedger), FreeWithinCap w.redis.ledger → ReadsSucceed w.redis →
      ∃ w1, run faultyLedgerService events w = some w1
        ∧ FreeWithinCap w1.redis.ledger ∧ ReadsSucceed w1.redis := by
  induction events with
  | nil => intro w h1 h2; exact ⟨w, rfl, h1, h2⟩
  | cons e es ih =>
    intro w h1 h2
    obtain ⟨w1, hs, h3, h4⟩ := faulty_step e w h1 h2
    obtain ⟨w2, hr, h5, h6⟩ := ih w1 h3 h4
    exact ⟨w2, by simp only [run, hs, hr], h5, h6⟩

/-- C2 (the claim fails where the admission check does not gate). First, a
premium user at 3550 seconds, within the cap of 3600, sends an audio of 100
seconds: the admission check returns `nil` without reading the ledger, the
increment is issued, and the premium counter is 3650 afterwards. Second, a
free user at 290 seconds sends an audio of 300 seconds while the read fails
with a store error: the error is only logged, the check runs on the zero
value beside it, the increment is issued, and the free counter is 590. -/
theorem ungated_increment_exceeds_cap :
    (FreeWithinCap (ledgerWith 7 none (some 3550))
      ∧ PremiumWithinCap (ledgerWith 7 none (some 3550))
      ∧ (run ledgerService [Event.audio (botDecoding true "hello") (updateOf 100)]
            { redis := ledgerWith 7 none (some 3550), sent := [] }).map
          (fun w => ((w.redis.records 7).premium, w.redis.calls))
          = some (some 3650, [LedgerCall.incrementPremium 7 100])
      ∧ ¬ ((3650 : Int) ≤ premiumMaxAudioDuration))
    ∧ (FreeWithinCap (ledgerWith 7 (some 290) none)
      ∧ PremiumWithinCap (ledgerWith 7 (some 290) none)
      ∧ (run faultyLedgerService [Event.audio (botDecoding false "hello") (updateOf 300)]
            { redis := { ledger := ledgerWith 7 (some 290) none,
                         readFaults := [some "connection refused"],
                         saveFaults := [], incrementFaults := [] },
              sent := [] }).map
          (fun w => ((w.redis.ledger.records 7).free, w.redis.ledger.calls))
          = some (some 590, [LedgerCall.incrementFree 7 300])
      ∧ ¬ ((590 : Int) ≤ unpremiumMaxAudioDuration)) := by
  refine ⟨⟨?_, ?_, by decide, by decide⟩, ⟨?_, ?_, by decide, by decide⟩⟩
  · intro u c hc
    unfold ledgerWith Ledger.setRecord emptyLedger at hc
    by_cases hu : u = 7 <;> simp [hu] at hc
  · intro u c hc
    unfold ledgerWith Ledger.setRecord emptyLedger at hc
    by_cases hu : u = 7
    · simp [hu] at hc
      subst hc
      decide
    · simp [hu] at hc
  · exact ledgerWith_free_within_cap 7 290 none (by decide)
  · intro u c hc
    unfold ledgerWith Ledger.setRecord emptyLedger at hc
    by_cases hu : u = 7 <;> simp [hu] at hc

/-- C2 (amended). Take any sequential run of `handleAudio` and `handleVoice`
events over a ledger whose store may fail on any write (`SaveUnpremiumUser`,
the two increments) but on no read, starting from free-tier counters that are
all within 300.  Every handler returns, and after each event, so after every
successful increment, every free-tier counter is still within 300. -/
theorem run_keeps_free_counters_within_cap (events : List Event) (w : World FaultyLedger)
    (h : FreeWithinCap w.redis.ledger) (hreads : ReadsSucceed w.redis) (k : Nat) :
    ∃ wk, run faultyLedgerService (events.take k) w = some wk
      ∧ FreeWithinCap wk.redis.ledger := by
  obtain ⟨wk, h1, h2, -⟩ := faulty_run (events.take k) w h hreads
  exact ⟨wk, h1, h2⟩

theorem run_keeps_free_counters_within_cap_witness :
    FreeWithinCap (ledgerWith 7 (some 250) none)
      ∧ ReadsSucceed { ledger := ledgerWith 7 (some 250) none, readFaults := [none, none],
                       saveFaults := [some "connection refused"],
                       incrementFaults := [none, some "timeout"] }
      ∧ ∃ wk, run faultyLedgerService
            ([Event.audio (botDecoding false "hello") (updateOf 30),
              Event.voice (botDecoding false "again") (updateOf 20)].take 2)
            { redis := { ledger := ledgerWith 7 (some 250) none, readFaults := [none, none],
                         saveFaults := [some "connection refused"],
                         incrementFaults := [none, some "timeout"] },
              sent := [] } = some wk
          ∧ FreeWithinCap wk.redis.ledger :=
  ⟨ledgerWith_free_within_cap 7 250 none (by decide),
    by unfold ReadsSucceed; decide,
    run_keeps_free_counters_within_cap _ _ (ledgerWith_free_within_cap 7 250 none (by decide))
      (by unfold ReadsSucceed; decide) 2⟩

/-! ## The free-tier admission rule -/

theorem grant_rule {σ : Type} (svc : RedisService σ) (d userId c : Int)
    (userName : String) (s s1 : σ) (hdmin : minInt ≤ d) (hc0 : 0 ≤ c) (hc : c ≤ maxInt - 300)
    (hread : svc.GetUnpremiumTimeSpent userId s = ((c, none), s1)) :
    ((isAudioDurationAllowed svc d userId userName false s).1 = none ↔ d ≤ 300 - c)
      ∧ (isAudioDurationAllowed svc (300 - c) userId userName false s).1 = none
      ∧ (isAudioDurationAllowed svc (300 - c + 1) userId userName false s).1 ≠ none := by
  have hmin : minInt ≤ 300 - c := by unfold minInt; unfold maxInt at hc; omega
  have hmin1 : minInt ≤ 300 - c + 1 := by unfold minInt; unfold maxInt at hc; omega
  refine ⟨isAudioDurationAllowed_grant_iff svc d userId c userName s s1 hdmin hc0 hc hread,
    ?_, ?_⟩
  · exact (isAudioDurationAllowed_grant_iff svc (300 - c) userId c userName s s1 hmin hc0 hc
      hread).2 (Int.le_refl _)
  · intro hgr
    have := (isAudioDurationAllowed_grant_iff svc (300 - c + 1) userId c userName s s1 hmin1
      hc0 hc hread).1 hgr
    omega

theorem read_after_run_within_cap (events : List Event) (w0 w1 : World Ledger)
    (userId c : Int) (s1 : Ledger) (h0 : FreeWithinCap w0.redis)
    (hrun : run ledgerService events w0 = some w1)
    (hread : ledgerService.GetUnpremiumTimeSpent userId w1.redis = ((c, none), s1)) :
    c ≤ 300 := by
  obtain ⟨w2, hr2, hinv⟩ := run_free_within_cap events w0 h0
  rw [hrun] at hr2
  cases hr2
  have hread2 : (Ledger.getConsumed userId w1.redis).1 = (c, none) := by
    have : Ledger.getConsumed userId w1.redis = ((c, none), s1) := hread
    rw [this]
  obtain ⟨-, hcases⟩ := ledger_getConsumed_cases userId w1.redis
  rcases hcases with ⟨-, hv⟩ | ⟨c0, -, hv⟩ | ⟨c0, hsome, hv⟩
  · rw [hread2] at hv
    simp at hv
  · rw [hread2] at hv
    simp at hv
  · rw [hread2] at hv
    simp only [Prod.mk.injEq, and_true] at hv
    subst hv
    exact hinv userId c hsome

/-- C1. A free-tier request of duration `d` whose read succeeds and returns
`c ≥ 0` consumed seconds is granted (`nil`) exactly when `d ≤ 300 - c`; `d = 300 - c`
is granted and `d = 300 - c + 1` is denied.  This holds for every service and
every store at every counter up to `maxInt - 300`, and so on every state that
a sequential run of the handlers reaches from a ledger within the cap, where
a successful read returns at most 300. -/
theorem isAudioDurationAllowed_grants_iff_remaining :
    (∀ (σ : Type) (svc : RedisService σ) (d userId c : Int) (userName : String) (s s1 : σ),
        minInt ≤ d → 0 ≤ c → c ≤ maxInt - 300 →
        svc.GetUnpremiumTimeSpent userId s = ((c, none), s1) →
        ((isAudioDurationAllowed svc d userId userName false s).1 = none ↔ d ≤ 300 - c)
          ∧ (isAudioDurationAllowed svc (300 - c) userId userName false s).1 = none
          ∧ (isAudioDurationAllowed svc (300 - c + 1) userId userName false s).1 ≠ none)
    ∧ (∀ (events : List Event) (w0 w1 : World Ledger) (d userId c : Int) (userName : String)
        (s1 : Ledger),
        FreeWithinCap w0.redis → run ledgerService events w0 = some w1 →
        minInt ≤ d → 0 ≤ c →
        ledgerService.GetUnpremiumTimeSpent userId w1.redis = ((c, none), s1) →
        ((isAudioDurationAllowed ledgerService d userId userName false w1.redis).1 = none
            ↔ d ≤ 300 - c)
          ∧ (isAudioDurationAllowed ledgerService (300 - c) userId userName false
              w1.redis).1 = none
          ∧ (isAudioDurationAllowed ledgerService (300 - c + 1) userId userName false
              w1.redis).1 ≠ none) := by
  constructor
  · intro σ svc d userId c userName s s1 hdmin hc0 hc hread
    exact grant_rule svc d userId c userName s s1 hdmin hc0 hc hread
  · intro events w0 w1 d userId c userName s1 h0 hrun hdmin hc0 hread
    have hc := read_after_run_within_cap events w0 w1 userId c s1 h0 hrun hread
    exact grant_rule ledgerService d userId c userName w1.redis s1 hdmin hc0
      (by unfold maxInt; omega) hread

theorem isAudioDurationAllowed_grants_iff_remaining_witness :
    FreeWithinCap (ledgerWith 7 (some 220) none)
      ∧ run ledgerService [Event.audio (botDecoding false "hello") (updateOf 30)]
          { redis := ledgerWith 7 (some 220) none, sent := [] }
          = some { redis := (Ledger.incrementFree 7 30
                      (Ledger.getConsumed 7 (ledgerWith 7 (some 220) none)).2).2,
                   sent := [(1, "Decoding will take from 15% to 30% of file duration if it is not too short"),
                     (1, "Here is the script of the audio:"), (1, "hello"),
                     (1, "Remaining free time: 00 minutes 50 seconds")] }
      ∧ minInt ≤ (50 : Int) ∧ (0 : Int) ≤ 250
      ∧ ledgerService.GetUnpremiumTimeSpent 7
          (Ledger.incrementFree 7 30 (Ledger.getConsumed 7 (ledgerWith 7 (some 220) none)).2).2
          = ((250, none), (Ledger.getConsumed 7 (Ledger.incrementFree 7 30
              (Ledger.getConsumed 7 (ledgerWith 7 (some 220) none)).2).2).2)
      ∧ ((isAudioDurationAllowed ledgerService 50 7 "Ann" false
            (Ledger.incrementFree 7 30
              (Ledger.getConsumed 7 (ledgerWith 7 (some 220) none)).2).2).1 = none
          ↔ (50 : Int) ≤ 300 - 250)
      ∧ (isAudioDurationAllowed ledgerService (300 - 250) 7 "Ann" false
            (Ledger.incrementFree 7 30
              (Ledger.getConsumed 7 (ledgerWith 7 (some 220) none)).2).2).1 = none
      ∧ (isAudioDurationAllowed ledgerService (300 - 250 + 1) 7 "Ann" false
            (Ledger.incrementFree 7 30
              (Ledger.getConsumed 7 (ledgerWith 7 (some 220) none)).2).2).1 ≠ none :=
  ⟨ledgerWith_free_within_cap 7 220 none (by decide), rfl, by decide, by decide, rfl,
    isAudioDurationAllowed_grants_iff_remaining.2
      [Event.audio (botDecoding false "hello") (updateOf 30)]
      { redis := ledgerWith 7 (some 220) none, sent := [] }
      { redis := (Ledger.incrementFree 7 30
                    (Ledger.getConsumed 7 (ledgerWith 7 (some 220) none)).2).2,
        sent := [(1, "Decoding will take from 15% to 30% of file duration if it is not too short"),
          (1, "Here is the script of the audio:"), (1, "hello"),
          (1, "Remaining free time: 00 minutes 50 seconds")] }
      50 7 250 "Ann"
      (Ledger.getConsumed 7 (Ledger.incrementFree 7 30
        (Ledger.getConsumed 7 (ledgerWith 7 (some 220) none)).2).2).2
      (ledgerWith_free_within_cap 7 220 none (by decide)) rfl (by decide) (by decide) rfl⟩

end AudTextBot
